import Mathlib

/-!
# LoRa ping-pong link engine (`src/PingPong/Application/main.c`)

A shallow embedding of the ping-pong application: the file-scope variables
`state`, `bufferSize`, `buffer`, `pingCounter`, `rxCounter`, `rssiValue`,
`snrValue` and the local `isMaster` of `PingPong` form the record `Engine`;
`RxLora`, `TxLora`, `SendPing` and one iteration of the `while (1)` loop of
`PingPong` are functions on it.  The radio driver (`lora_recv`, `lora_send`,
`Radio.Sleep`) and `k_sleep` are outside the program: their results are
inputs of the functions and their calls are recorded in an effect trace.

Machine integers are natural numbers reduced explicitly: `uint8_t` modulo
`2^8`, `uint16_t` modulo `2^16`, `uint32_t` modulo `2^32`.
-/

namespace LoRaPingPong

/-! ## Data model -/

/-- The enumeration `States_t`. -/
inductive States_t
  | LOWPOWER
  | RX
  | RX_TIMEOUT
  | RX_ERROR
  | TX
  | TX_TIMEOUT
  | TX_ERROR
  deriving DecidableEq, Repr

/-- Receive timeout in milliseconds (`#define RX_TIMEOUT_VALUE 2000`). -/
def RX_TIMEOUT_VALUE : Nat := 2000

/-- Pacing delay in milliseconds (`#define TX_TIME_VALUE 500`). -/
def TX_TIME_VALUE : Nat := 500

/-- Payload size (`#define BUFFER_SIZE 64`). -/
def BUFFER_SIZE : Nat := 64

/-- The errno value `EAGAIN` of the Zephyr C library, returned (negated) by
`lora_recv` on a timeout. -/
def EAGAIN : Int := 11

/-- A region of bytes addressed by offset: `m i` is the byte at offset `i`.
The array `buffer` is the region starting at `&buffer[0]`; offsets `0..63`
lie inside the array. -/
abbrev Bytes := Nat → Nat

/-- The string literal `"PING"` of `pingMsg`: four letters and the
terminating NUL. -/
def pingMsg : Bytes := fun i => [80, 73, 78, 71, 0].getD i 0

/-- The string literal `"PONG"` of `pongMsg`: four letters and the
terminating NUL. -/
def pongMsg : Bytes := fun i => [80, 79, 78, 71, 0].getD i 0

/-- The variables of the program: the file-scope statics and the local
`isMaster` of `PingPong`. -/
structure Engine where
  state : States_t
  bufferSize : Nat
  buffer : Bytes
  pingCounter : Nat
  rxCounter : Nat
  rssiValue : Int
  snrValue : Int
  isMaster : Bool

/-- What one call of `lora_recv` hands back: the return value `size` (a byte
count, or a negative errno), the bytes the driver copied to the start of the
caller's buffer, and the values left in `rssiValue` and `snrValue`. -/
structure RecvResult where
  size : Int
  data : List Nat
  rssi : Int
  snr : Int

/-- The outcome of the radio operation of one loop iteration: the result of
`lora_recv` if the iteration receives, the return value of `lora_send` if it
transmits. -/
structure RadioOutcome where
  recv : RecvResult
  sendRet : Int

/-- The externally visible calls and the writes of `state`, in program
order. -/
inductive Effect
  | recv (timeoutMs : Nat)
  | send (frame : List Nat)
  | radioSleep
  | kSleep (ms : Nat)
  | setState (s : States_t)
  deriving DecidableEq, Repr

/-- The frames handed to `lora_send` in a trace, in order. -/
def sentFrames : List Effect → List (List Nat)
  | [] => []
  | Effect.send f :: t => f :: sentFrames t
  | _ :: t => sentFrames t

/-- The number of `lora_recv` calls in a trace. -/
def recvCount : List Effect → Nat
  | [] => 0
  | Effect.recv _ :: t => recvCount t + 1
  | _ :: t => recvCount t

/-! ## The program -/

/-- The effect of `lora_recv` on the caller's buffer: the copied bytes are
stored as `uint8_t` from offset 0, the rest is left as it was. -/
def recvInto (buf : Bytes) (data : List Nat) : Bytes :=
  fun i => if i < data.length then data.getD i 0 % 256 else buf i

/-- The C library function `strncmp` on byte regions: compares at most `n`
characters as `unsigned char` and stops after a NUL. -/
def strncmp (s1 s2 : Bytes) : Nat → Int
  | 0 => 0
  | n + 1 =>
    if s1 0 ≠ s2 0 then (s1 0 : Int) - (s2 0 : Int)
    else if s1 0 = 0 then 0
    else strncmp (fun i => s1 (i + 1)) (fun i => s2 (i + 1)) n

/-- The expression
`(buffer[4] << 24) | (buffer[5] << 16) | (buffer[6] << 8) | (buffer[7])`
converted to `uint32_t` (lines 192, 234, 250).  The bytes are promoted to a
32-bit `int`; the conversion to `uint32_t` keeps the low 32 bits. -/
def decodeCounter (buf : Bytes) : Nat :=
  ((buf 4 <<< 24) ||| (buf 5 <<< 16) ||| (buf 6 <<< 8) ||| buf 7) % 2 ^ 32

/-- The function `RxLora`: one blocking `lora_recv` into `buffer`, then
`Radio.Sleep()` and the new `state`; `bufferSize` (a `uint16_t`) takes the
size only on success. -/
def RxLora (e : Engine) (timeoutMs : Nat) (r : RecvResult) : Engine × List Effect :=
  let e1 := { e with buffer := recvInto e.buffer r.data, rssiValue := r.rssi, snrValue := r.snr }
  if r.size = -EAGAIN then
    ({ e1 with state := States_t.RX_TIMEOUT },
      [Effect.recv timeoutMs, Effect.radioSleep, Effect.setState States_t.RX_TIMEOUT])
  else if r.size < 0 then
    ({ e1 with state := States_t.RX_ERROR },
      [Effect.recv timeoutMs, Effect.radioSleep, Effect.setState States_t.RX_ERROR])
  else
    ({ e1 with bufferSize := r.size.toNat % 2 ^ 16, state := States_t.RX },
      [Effect.recv timeoutMs, Effect.radioSleep, Effect.setState States_t.RX])

/-- The function `TxLora(buffer, size)`: the parameter `size` is a `uint8_t`,
so the frame handed to `lora_send` is the first `size % 256` bytes of the
buffer. -/
def TxLora (e : Engine) (size : Nat) (ret : Int) : Engine × List Effect :=
  let frame := (List.range (size % 2 ^ 8)).map e.buffer
  if ret < 0 then
    ({ e with state := States_t.TX_ERROR },
      [Effect.send frame, Effect.radioSleep, Effect.setState States_t.TX_ERROR])
  else
    ({ e with state := States_t.TX },
      [Effect.send frame, Effect.radioSleep, Effect.setState States_t.TX])

/-- The loop `for (int i = 8; i < bufferSize; i++) buffer[i] = i - 8;` of
`SendPing`. -/
def fillPayload (bufferSize : Nat) (buf : Bytes) : Bytes :=
  (List.range' 8 (bufferSize - 8)).foldl (fun b i => Function.update b i ((i - 8) % 2 ^ 8)) buf

/-- The function `SendPing`: writes the tag, increments `pingCounter`
(a `uint32_t`), writes it big-endian, fills the payload up to `bufferSize`,
sleeps 1 ms and transmits `bufferSize` bytes. -/
def SendPing (e : Engine) (ret : Int) : Engine × List Effect :=
  let b := Function.update e.buffer 0 80
  let b := Function.update b 1 73
  let b := Function.update b 2 78
  let b := Function.update b 3 71
  let c := (e.pingCounter + 1) % 2 ^ 32
  let b := Function.update b 4 ((c >>> 24) &&& 0xFF)
  let b := Function.update b 5 ((c >>> 16) &&& 0xFF)
  let b := Function.update b 6 ((c >>> 8) &&& 0xFF)
  let b := Function.update b 7 ((c >>> 0) &&& 0xFF)
  let b := fillPayload e.bufferSize b
  let e1 := { e with buffer := b, pingCounter := c }
  let r := TxLora e1 e1.bufferSize ret
  (r.1, Effect.kSleep 1 :: r.2)

/-- One iteration of the `while (1)` loop of `PingPong`: the `switch` over
`state`. -/
def PingPongStep (e : Engine) (o : RadioOutcome) : Engine × List Effect :=
  match e.state with
  | States_t.RX =>
    let e0 := { e with state := States_t.LOWPOWER }
    if e0.isMaster = true then
      if e0.bufferSize > 0 then
        if strncmp e0.buffer pongMsg 4 = 0 then
          let e1 := { e0 with rxCounter := decodeCounter e0.buffer }
          let r := SendPing e1 o.sendRet
          (r.1, Effect.setState States_t.LOWPOWER :: Effect.kSleep TX_TIME_VALUE :: r.2)
        else if strncmp e0.buffer pingMsg 4 = 0 then
          let e1 := { e0 with isMaster := false }
          let r := RxLora e1 RX_TIMEOUT_VALUE o.recv
          (r.1, Effect.setState States_t.LOWPOWER :: r.2)
        else
          let e1 := { e0 with isMaster := true }
          let r := RxLora e1 RX_TIMEOUT_VALUE o.recv
          (r.1, Effect.setState States_t.LOWPOWER :: r.2)
      else (e0, [Effect.setState States_t.LOWPOWER])
    else
      if e0.bufferSize > 0 then
        if strncmp e0.buffer pingMsg 4 = 0 then
          let e1 := { e0 with rxCounter := decodeCounter e0.buffer }
          let b := Function.update e1.buffer 0 80
          let b := Function.update b 1 79
          let b := Function.update b 2 78
          let b := Function.update b 3 71
          let e2 := { e1 with buffer := b }
          let r := TxLora e2 e2.bufferSize o.sendRet
          ({ r.1 with rxCounter := decodeCounter r.1.buffer },
            Effect.setState States_t.LOWPOWER :: Effect.kSleep 1 :: r.2)
        else
          let e1 := { e0 with isMaster := true }
          let r := RxLora e1 RX_TIMEOUT_VALUE o.recv
          (r.1, Effect.setState States_t.LOWPOWER :: r.2)
      else (e0, [Effect.setState States_t.LOWPOWER])
  | States_t.TX => RxLora e RX_TIMEOUT_VALUE o.recv
  | States_t.RX_TIMEOUT => if e.isMaster = true then SendPing e o.sendRet else RxLora e RX_TIMEOUT_VALUE o.recv
  | States_t.RX_ERROR => if e.isMaster = true then SendPing e o.sendRet else RxLora e RX_TIMEOUT_VALUE o.recv
  | States_t.TX_ERROR => RxLora e RX_TIMEOUT_VALUE o.recv
  | States_t.TX_TIMEOUT => RxLora e RX_TIMEOUT_VALUE o.recv
  | States_t.LOWPOWER => (e, [])

/-- The variables as `main` leaves them when it calls `PingPong`: the static
initialisers, with `pingCounter = 0`. -/
def boot : Engine where
  state := States_t.LOWPOWER
  bufferSize := BUFFER_SIZE
  buffer := fun _ => 0
  pingCounter := 0
  rxCounter := 0
  rssiValue := 0
  snrValue := 0
  isMaster := true

/-- The entry of `PingPong`: `isMaster = true` and the first `RxLora`. -/
def PingPongStart (e : Engine) (r : RecvResult) : Engine × List Effect :=
  RxLora { e with isMaster := true } RX_TIMEOUT_VALUE r

/-- Iterations of the loop of `PingPong` from engine `e`, one radio outcome
per iteration; the traces are concatenated. -/
def PingPongLoop (e : Engine) : List RadioOutcome → Engine × List Effect
  | [] => (e, [])
  | o :: os =>
    let r := PingPongStep e o
    let r2 := PingPongLoop r.1 os
    (r2.1, r.2 ++ r2.2)

/-- The function `PingPong` run for the first receive and then one loop
iteration per listed outcome. -/
def PingPong (e : Engine) (r : RecvResult) (os : List RadioOutcome) : Engine × List Effect :=
  let s := PingPongStart e r
  let l := PingPongLoop s.1 os
  (l.1, s.2 ++ l.2)

/-- The result of a `lora_recv` that succeeds with frame `f`: the return
value is the frame length and the frame is what the driver copied. -/
def received (f : List Nat) (rssi snr : Int) : RecvResult :=
  { size := (f.length : Int), data := f, rssi := rssi, snr := snr }

/-- The result of a `lora_recv` that times out: `-EAGAIN`, nothing copied. -/
def timedOut : RecvResult := { size := -EAGAIN, data := [], rssi := 0, snr := 0 }

/-- The outcome of an iteration whose radio operation is a successful
transmit (`lora_send` returns 0). -/
def sendOk : RadioOutcome := { recv := timedOut, sendRet := 0 }

/-- The outcome of an iteration whose radio operation is a receive with
result `r`. -/
def recvOutcome (r : RecvResult) : RadioOutcome := { recv := r, sendRet := 0 }

/-- The `lora_recv` result respects the `size` argument `sizeof(buffer)`
passed by `RxLora`: a successful receive returns at most 64. -/
def sizeOk (r : RecvResult) : Prop := r.size ≤ (BUFFER_SIZE : Int)

/-- The offsets of `buffer` that `SendPing` writes: 0..7 by the eight
assignments and every `i` of the loop `for (i = 8; i < bufferSize; i++)`. -/
def SendPingOffsets (bufferSize : Nat) : List Nat :=
  [0, 1, 2, 3, 4, 5, 6, 7] ++ List.range' 8 (bufferSize - 8)

/-- The offsets of `buffer` that the `RX` case of `PingPong` accesses itself:
`strncmp(buffer, msg, 4)` reads 0..3, the counter decode reads 4..7, the PONG
reply writes 0..3 and the hexdumps `LOG_HEXDUMP_INF(buffer, 8, ...)` read 0..7. -/
def PingPongOffsets : List Nat := [0, 1, 2, 3, 4, 5, 6, 7]

/-- The offsets of the buffer that `lora_send(lora_dev, buffer, size)` reads
in `TxLora`, `size` being a `uint8_t`. -/
def TxLoraOffsets (size : Nat) : List Nat := List.range (size % 2 ^ 8)

/-! ## The LoRaWAN class A application (`src/lorawan/class_a/src/main.c`)

The part of `main` from the join loop on.  `lorawan_join`, `lorawan_send` and
`k_sleep` are outside the program: their return values are inputs and their
calls are recorded in a trace. -/

/-- The calls made by `main` of the class A application: `lorawan_join` (with
the value of the loop variable `i`, the logged attempt number), `k_sleep` and
`lorawan_send` (port and payload). -/
inductive JoinEffect
  | join (attempt : Nat)
  | sleep (ms : Nat)
  | lwSend (port : Nat) (payload : List Nat)
  deriving DecidableEq, Repr

/-- The loop `for (int i = 0; i < 16; i++)` of `main`, entered with loop
variable `i` after `n` calls of `lorawan_join`; `res n` is the value the next
call returns.  A success sets `i = 0xFF`, and the increment then ends the
loop. -/
def joinLoop (res : Nat → Int) (i n : Nat) : List JoinEffect :=
  if h : i < 16 then
    if res n < 0 then
      if i % 2 = 1 then
        JoinEffect.join i :: JoinEffect.sleep 6000 :: joinLoop res (i + 1) (n + 1)
      else
        JoinEffect.join i :: joinLoop res (i + 1) (n + 1)
    else
      JoinEffect.join i :: joinLoop res (0xFF + 1) (n + 1)
  else []
termination_by 16 - i
decreasing_by all_goals omega

/-- The initial contents of `data`: the characters of `helloworld0000`. -/
def helloData : List Nat := [104, 101, 108, 108, 111, 119, 111, 114, 108, 100, 48, 48, 48, 48]

/-- The loop `while (1)` of `main`, run for as many iterations as send results
are given: the counter (a `uint32_t`) is incremented and written big-endian to
`data[10..13]`, the 14 bytes are sent on port 2, and the loop sleeps 4000 ms
and continues unless the send failed with an error other than `-EAGAIN`, in
which case `main` returns. -/
def sendLoop (counter : Nat) (data : List Nat) : List Int → List JoinEffect
  | [] => []
  | ret :: rest =>
    let c := (counter + 1) % 2 ^ 32
    let d := (((data.set 10 ((c >>> 24) &&& 0xFF)).set 11 ((c >>> 16) &&& 0xFF)).set 12
      ((c >>> 8) &&& 0xFF)).set 13 ((c >>> 0) &&& 0xFF)
    if ret = -EAGAIN then
      JoinEffect.lwSend 2 d :: JoinEffect.sleep 4000 :: sendLoop c d rest
    else if ret < 0 then
      [JoinEffect.lwSend 2 d]
    else
      JoinEffect.lwSend 2 d :: JoinEffect.sleep 4000 :: sendLoop c d rest

/-- The function `main` of the class A application from the join loop on:
the join loop, then the send loop. -/
def classAMain (res : Nat → Int) (sendRets : List Int) : List JoinEffect :=
  joinLoop res 0 0 ++ sendLoop 0 helloData sendRets

/-- The number of `lorawan_join` calls in a trace. -/
def joinCount : List JoinEffect → Nat
  | [] => 0
  | JoinEffect.join _ :: t => joinCount t + 1
  | _ :: t => joinCount t

/-- The trace the claim describes for attempt `k`: the join call, followed by
a sleep of 6000 ms exactly when the attempt failed and `k` is odd. -/
def attemptTrace (res : Nat → Int) (k : Nat) : List JoinEffect :=
  if res k < 0 ∧ k % 2 = 1 then [JoinEffect.join k, JoinEffect.sleep 6000]
  else [JoinEffect.join k]

/-- A frame as a byte region: offsets past the end read as 0. -/
def frameBytes (f : List Nat) : Bytes := fun i => f.getD i 0

/-- The buffer `SendPing` builds before it transmits. -/
def pingBuffer (e : Engine) : Bytes :=
  let c := (e.pingCounter + 1) % 2 ^ 32
  fillPayload e.bufferSize
    (Function.update (Function.update (Function.update (Function.update
      (Function.update (Function.update (Function.update (Function.update e.buffer 0 80) 1 73)
        2 78) 3 71) 4 ((c >>> 24) &&& 0xFF)) 5 ((c >>> 16) &&& 0xFF)) 6 ((c >>> 8) &&& 0xFF))
      7 ((c >>> 0) &&& 0xFF))

/-! ## Lemmas on the byte operations -/

theorem foldl_fill (k : Nat) : ∀ (s : Nat) (buf : Bytes) (j : Nat),
    (List.range' s k).foldl (fun b i => Function.update b i ((i - 8) % 2 ^ 8)) buf j
      = if s ≤ j ∧ j < s + k then (j - 8) % 2 ^ 8 else buf j := by
  induction k with
  | zero =>
    intro s buf j
    have h : ¬ (s ≤ j ∧ j < s + 0) := by omega
    rw [if_neg h]; rfl
  | succ k ih =>
    intro s buf j
    rw [List.range'_succ, List.foldl_cons, ih]
    by_cases h1 : s + 1 ≤ j ∧ j < s + 1 + k
    · have h2 : s ≤ j ∧ j < s + (k + 1) := by omega
      rw [if_pos h1, if_pos h2]
    · rw [if_neg h1]
      by_cases h3 : j = s
      · subst h3
        simp
      · have h2 : ¬ (s ≤ j ∧ j < s + (k + 1)) := by omega
        rw [if_neg h2, Function.update_noteq h3]

theorem fillPayload_apply (n : Nat) (buf : Bytes) (j : Nat) :
    fillPayload n buf j = if 8 ≤ j ∧ j < n then (j - 8) % 2 ^ 8 else buf j := by
  unfold fillPayload
  rw [foldl_fill]
  by_cases h : 8 ≤ j ∧ j < n
  · have h2 : 8 ≤ j ∧ j < 8 + (n - 8) := by omega
    rw [if_pos h, if_pos h2]
  · have h2 : ¬ (8 ≤ j ∧ j < 8 + (n - 8)) := by omega
    rw [if_neg h, if_neg h2]

theorem fillPayload_low (n : Nat) (buf : Bytes) (j : Nat) (h : j < 8) :
    fillPayload n buf j = buf j := by
  rw [fillPayload_apply]
  have h2 : ¬ (8 ≤ j ∧ j < n) := by omega
  rw [if_neg h2]

/-- Big-endian split and recombination of a 32-bit value. -/
theorem be_roundtrip (c : Nat) (hc : c < 2 ^ 32) :
    ((((c >>> 24) &&& 0xFF) <<< 24) ||| (((c >>> 16) &&& 0xFF) <<< 16)
      ||| (((c >>> 8) &&& 0xFF) <<< 8) ||| ((c >>> 0) &&& 0xFF)) % 2 ^ 32 = c := by
  have e : (0xFF : Nat) = 2 ^ 8 - 1 := by norm_num
  apply Nat.eq_of_testBit_eq
  intro i
  simp only [e, Nat.testBit_mod_two_pow, Nat.testBit_or, Nat.testBit_shiftLeft, Nat.testBit_and,
    Nat.testBit_shiftRight, Nat.testBit_two_pow_sub_one]
  rcases Nat.lt_or_ge i 8 with h | h
  · have a1 : ¬ i ≥ 24 := by omega
    have a2 : ¬ i ≥ 16 := by omega
    have a3 : ¬ i ≥ 8 := by omega
    have a4 : i < 32 := by omega
    simp [a1, a2, a3, a4, h]
  rcases Nat.lt_or_ge i 16 with h2 | h2
  · have a1 : ¬ i ≥ 24 := by omega
    have a2 : ¬ i ≥ 16 := by omega
    have a4 : i < 32 := by omega
    have a5 : ¬ i < 8 := by omega
    have a6 : i - 8 < 8 := by omega
    have a7 : 8 + (i - 8) = i := by omega
    simp [a1, a2, a4, a5, a6, a7, h]
  rcases Nat.lt_or_ge i 24 with h3 | h3
  · have a1 : ¬ i ≥ 24 := by omega
    have a4 : i < 32 := by omega
    have a5 : ¬ i < 8 := by omega
    have a6 : ¬ i - 8 < 8 := by omega
    have a7 : 16 + (i - 16) = i := by omega
    have a8 : i - 16 < 8 := by omega
    simp [a1, a4, a5, a6, a7, a8, h2]
  rcases Nat.lt_or_ge i 32 with h4 | h4
  · have a5 : ¬ i < 8 := by omega
    have a6 : ¬ i - 8 < 8 := by omega
    have a7 : 24 + (i - 24) = i := by omega
    have a8 : ¬ i - 16 < 8 := by omega
    have a9 : i - 24 < 8 := by omega
    simp [a5, a6, a7, a8, a9, h3, h4]
  · have a1 : ¬ i < 32 := by omega
    have hlt : c < 2 ^ i := lt_of_lt_of_le hc (Nat.pow_le_pow_right (by norm_num) h4)
    simp [a1, Nat.testBit_eq_false_of_lt hlt]

theorem frameBytes_map_range (buf : Bytes) (n i : Nat) (h : i < n) :
    frameBytes ((List.range n).map buf) i = buf i := by
  simp [frameBytes, List.getD_eq_getElem?_getD, List.getElem?_map, List.getElem?_range h]

/-- The decoded counter depends only on offsets 4..7. -/
theorem decodeCounter_congr (b1 b2 : Bytes) (h4 : b1 4 = b2 4) (h5 : b1 5 = b2 5)
    (h6 : b1 6 = b2 6) (h7 : b1 7 = b2 7) : decodeCounter b1 = decodeCounter b2 := by
  simp [decodeCounter, h4, h5, h6, h7]

/-! ## Lemmas on `TxLora`, `RxLora` and `SendPing` -/

theorem SendPing_eq (e : Engine) (ret : Int) :
    SendPing e ret =
      ({ e with buffer := pingBuffer e, pingCounter := (e.pingCounter + 1) % 2 ^ 32,
                state := if ret < 0 then States_t.TX_ERROR else States_t.TX },
       [Effect.kSleep 1, Effect.send ((List.range (e.bufferSize % 2 ^ 8)).map (pingBuffer e)),
        Effect.radioSleep,
        Effect.setState (if ret < 0 then States_t.TX_ERROR else States_t.TX)]) := by
  unfold SendPing TxLora pingBuffer
  by_cases h : ret < 0 <;> simp [h]

theorem decodeCounter_pingBuffer (e : Engine) :
    decodeCounter (pingBuffer e) = (e.pingCounter + 1) % 2 ^ 32 := by
  have hc : (e.pingCounter + 1) % 2 ^ 32 < 2 ^ 32 := Nat.mod_lt _ (by norm_num)
  have h := be_roundtrip _ hc
  unfold decodeCounter pingBuffer
  simp only [fillPayload_low _ _ _ (show 4 < 8 by norm_num),
    fillPayload_low _ _ _ (show 5 < 8 by norm_num), fillPayload_low _ _ _ (show 6 < 8 by norm_num),
    fillPayload_low _ _ _ (show 7 < 8 by norm_num)]
  simpa [Function.update] using h

theorem strncmp_ping_iff (b : Bytes) :
    strncmp b pingMsg 4 = 0 ↔ (b 0 = 80 ∧ b 1 = 73 ∧ b 2 = 78 ∧ b 3 = 71) := by
  simp only [strncmp, pingMsg]
  simp only [List.getD_cons_zero, List.getD_cons_succ, Nat.zero_add, Nat.reduceAdd]
  constructor
  · intro h
    split_ifs at h <;> omega
  · rintro ⟨h0, h1, h2, h3⟩
    simp [h0, h1, h2, h3]

theorem strncmp_pong_iff (b : Bytes) :
    strncmp b pongMsg 4 = 0 ↔ (b 0 = 80 ∧ b 1 = 79 ∧ b 2 = 78 ∧ b 3 = 71) := by
  simp only [strncmp, pongMsg]
  simp only [List.getD_cons_zero, List.getD_cons_succ, Nat.zero_add, Nat.reduceAdd]
  constructor
  · intro h
    split_ifs at h <;> omega
  · rintro ⟨h0, h1, h2, h3⟩
    simp [h0, h1, h2, h3]

theorem RxLora_received (e : Engine) (t : Nat) (f : List Nat) (rssi snr : Int) :
    RxLora e t (received f rssi snr) =
      ({ e with buffer := recvInto e.buffer f, rssiValue := rssi, snrValue := snr,
                bufferSize := f.length % 2 ^ 16, state := States_t.RX },
       [Effect.recv t, Effect.radioSleep, Effect.setState States_t.RX]) := by
  have h1 : ¬ ((f.length : Int) = -EAGAIN) := by unfold EAGAIN; omega
  have h2 : ¬ ((f.length : Int) < 0) := by omega
  simp [RxLora, received, h1, h2]

theorem RxLora_isMaster (e : Engine) (t : Nat) (r : RecvResult) :
    (RxLora e t r).1.isMaster = e.isMaster := by
  unfold RxLora
  split_ifs <;> rfl

theorem RxLora_pingCounter (e : Engine) (t : Nat) (r : RecvResult) :
    (RxLora e t r).1.pingCounter = e.pingCounter := by
  unfold RxLora
  split_ifs <;> rfl

theorem RxLora_buffer (e : Engine) (t : Nat) (r : RecvResult) :
    (RxLora e t r).1.buffer = recvInto e.buffer r.data := by
  unfold RxLora
  split_ifs <;> rfl

theorem RxLora_sentFrames (e : Engine) (t : Nat) (r : RecvResult) :
    sentFrames (RxLora e t r).2 = [] := by
  unfold RxLora
  split_ifs <;> rfl

theorem RxLora_recvCount (e : Engine) (t : Nat) (r : RecvResult) :
    recvCount (RxLora e t r).2 = 1 := by
  unfold RxLora
  split_ifs <;> rfl

/-! ## The branches of one loop iteration -/

theorem step_RX_master_pong (e : Engine) (o : RadioOutcome) (hs : e.state = States_t.RX)
    (hm : e.isMaster = true) (hb : 0 < e.bufferSize) (ht : strncmp e.buffer pongMsg 4 = 0) :
    PingPongStep e o =
      ((SendPing { e with state := States_t.LOWPOWER, rxCounter := decodeCounter e.buffer }
          o.sendRet).1,
       Effect.setState States_t.LOWPOWER :: Effect.kSleep TX_TIME_VALUE ::
        (SendPing { e with state := States_t.LOWPOWER, rxCounter := decodeCounter e.buffer }
          o.sendRet).2) := by
  unfold PingPongStep
  simp [hs, hm, hb, ht]

theorem step_RX_master_ping (e : Engine) (o : RadioOutcome) (hs : e.state = States_t.RX)
    (hm : e.isMaster = true) (hb : 0 < e.bufferSize) (ht : strncmp e.buffer pongMsg 4 ≠ 0)
    (ht2 : strncmp e.buffer pingMsg 4 = 0) :
    PingPongStep e o =
      ((RxLora { e with state := States_t.LOWPOWER, isMaster := false } RX_TIMEOUT_VALUE o.recv).1,
       Effect.setState States_t.LOWPOWER ::
        (RxLora { e with state := States_t.LOWPOWER, isMaster := false }
          RX_TIMEOUT_VALUE o.recv).2) := by
  unfold PingPongStep
  simp [hs, hm, hb, ht, ht2]

theorem step_RX_master_other (e : Engine) (o : RadioOutcome) (hs : e.state = States_t.RX)
    (hm : e.isMaster = true) (hb : 0 < e.bufferSize) (ht : strncmp e.buffer pongMsg 4 ≠ 0)
    (ht2 : strncmp e.buffer pingMsg 4 ≠ 0) :
    PingPongStep e o =
      ((RxLora { e with state := States_t.LOWPOWER, isMaster := true } RX_TIMEOUT_VALUE o.recv).1,
       Effect.setState States_t.LOWPOWER ::
        (RxLora { e with state := States_t.LOWPOWER, isMaster := true }
          RX_TIMEOUT_VALUE o.recv).2) := by
  unfold PingPongStep
  simp [hs, hm, hb, ht, ht2]

theorem step_RX_slave_ping (e : Engine) (o : RadioOutcome) (hs : e.state = States_t.RX)
    (hm : e.isMaster = false) (hb : 0 < e.bufferSize) (ht : strncmp e.buffer pingMsg 4 = 0) :
    (PingPongStep e o).2 =
      [Effect.setState States_t.LOWPOWER, Effect.kSleep 1,
       Effect.send ((List.range (e.bufferSize % 2 ^ 8)).map
         (Function.update (Function.update (Function.update (Function.update e.buffer 0 80)
            1 79) 2 78) 3 71)),
       Effect.radioSleep,
       Effect.setState (if o.sendRet < 0 then States_t.TX_ERROR else States_t.TX)] ∧
    (PingPongStep e o).1.isMaster = false ∧
    (PingPongStep e o).1.pingCounter = e.pingCounter ∧
    (PingPongStep e o).1.bufferSize = e.bufferSize ∧
    (PingPongStep e o).1.state = (if o.sendRet < 0 then States_t.TX_ERROR else States_t.TX) := by
  unfold PingPongStep TxLora
  by_cases h : o.sendRet < 0 <;> simp [hs, hm, hb, ht, h]

theorem step_RX_slave_other (e : Engine) (o : RadioOutcome) (hs : e.state = States_t.RX)
    (hm : e.isMaster = false) (hb : 0 < e.bufferSize) (ht : strncmp e.buffer pingMsg 4 ≠ 0) :
    PingPongStep e o =
      ((RxLora { e with state := States_t.LOWPOWER, isMaster := true } RX_TIMEOUT_VALUE o.recv).1,
       Effect.setState States_t.LOWPOWER ::
        (RxLora { e with state := States_t.LOWPOWER, isMaster := true }
          RX_TIMEOUT_VALUE o.recv).2) := by
  unfold PingPongStep
  simp [hs, hm, hb, ht]

theorem step_RX_empty (e : Engine) (o : RadioOutcome) (hs : e.state = States_t.RX)
    (hb : e.bufferSize = 0) :
    PingPongStep e o = ({ e with state := States_t.LOWPOWER }, [Effect.setState States_t.LOWPOWER]) := by
  unfold PingPongStep
  cases hm : e.isMaster <;> simp [hs, hm, hb]

theorem step_rxfail_master (e : Engine) (o : RadioOutcome)
    (hs : e.state = States_t.RX_TIMEOUT ∨ e.state = States_t.RX_ERROR) (hm : e.isMaster = true) :
    PingPongStep e o = SendPing e o.sendRet := by
  unfold PingPongStep
  rcases hs with hs | hs <;> simp [hs, hm]

theorem step_rxfail_slave (e : Engine) (o : RadioOutcome)
    (hs : e.state = States_t.RX_TIMEOUT ∨ e.state = States_t.RX_ERROR) (hm : e.isMaster = false) :
    PingPongStep e o = RxLora e RX_TIMEOUT_VALUE o.recv := by
  unfold PingPongStep
  rcases hs with hs | hs <;> simp [hs, hm]

theorem recvInto_lt (buf : Bytes) (f : List Nat) (hbytes : ∀ b ∈ f, b < 256) (i : Nat)
    (h : i < f.length) : recvInto buf f i = f.getD i 0 := by
  unfold recvInto
  rw [if_pos h, List.getD_eq_getElem f 0 h]
  exact Nat.mod_eq_of_lt (hbytes _ (List.getElem_mem h))

theorem map_range_eq_of_getD (b : Bytes) (l : List Nat)
    (h : ∀ i, i < l.length → b i = l.getD i 0) : (List.range l.length).map b = l := by
  apply List.ext_getElem
  · simp
  · intro i h1 h2
    simp only [List.getElem_map, List.getElem_range]
    rw [h i h2, List.getD_eq_getElem l 0 h2]

theorem tag_split (f : List Nat) (a b c d : Nat) (h : f.take 4 = [a, b, c, d]) :
    f = a :: b :: c :: d :: f.drop 4 := by
  have h2 := List.take_append_drop 4 f
  rw [h] at h2
  exact h2.symm

theorem pingBuffer_tag (e : Engine) :
    pingBuffer e 0 = 80 ∧ pingBuffer e 1 = 73 ∧ pingBuffer e 2 = 78 ∧ pingBuffer e 3 = 71 := by
  unfold pingBuffer
  simp only [fillPayload_low _ _ _ (show 0 < 8 by norm_num),
    fillPayload_low _ _ _ (show 1 < 8 by norm_num), fillPayload_low _ _ _ (show 2 < 8 by norm_num),
    fillPayload_low _ _ _ (show 3 < 8 by norm_num)]
  simp [Function.update]

/-- What `SendPing` transmits when `bufferSize` is between 8 and 64: one
frame of `bufferSize` bytes with tag `PING` and the incremented counter. -/
theorem SendPing_sends (e : Engine) (ret : Int) (h8 : 8 ≤ e.bufferSize)
    (h64 : e.bufferSize ≤ BUFFER_SIZE) :
    ∃ frame, sentFrames (SendPing e ret).2 = [frame] ∧ frame.length = e.bufferSize ∧
      strncmp (frameBytes frame) pingMsg 4 = 0 ∧
      decodeCounter (frameBytes frame) = (e.pingCounter + 1) % 2 ^ 32 := by
  have hm : e.bufferSize % 2 ^ 8 = e.bufferSize := by
    unfold BUFFER_SIZE at h64
    exact Nat.mod_eq_of_lt (by norm_num; omega)
  refine ⟨(List.range e.bufferSize).map (pingBuffer e), ?_, by simp, ?_, ?_⟩
  · rw [SendPing_eq, hm]; rfl
  · obtain ⟨t0, t1, t2, t3⟩ := pingBuffer_tag e
    rw [strncmp_ping_iff]
    refine ⟨?_, ?_, ?_, ?_⟩
    · rw [frameBytes_map_range _ _ _ (by omega), t0]
    · rw [frameBytes_map_range _ _ _ (by omega), t1]
    · rw [frameBytes_map_range _ _ _ (by omega), t2]
    · rw [frameBytes_map_range _ _ _ (by omega), t3]
  · rw [← decodeCounter_pingBuffer e]
    apply decodeCounter_congr <;> apply frameBytes_map_range <;> omega

theorem SendPing_facts (e : Engine) (ret : Int) :
    (SendPing e ret).1.isMaster = e.isMaster ∧
    (SendPing e ret).1.pingCounter = (e.pingCounter + 1) % 2 ^ 32 ∧
    (SendPing e ret).1.bufferSize = e.bufferSize ∧
    recvCount (SendPing e ret).2 = 0 ∧
    sentFrames (SendPing e ret).2 = [(List.range (e.bufferSize % 2 ^ 8)).map (pingBuffer e)] := by
  rw [SendPing_eq]
  exact ⟨rfl, rfl, rfl, rfl, rfl⟩

theorem recvInto_nil (buf : Bytes) : recvInto buf [] = buf := by
  funext i
  simp [recvInto]

theorem step_tx (e : Engine) (o : RadioOutcome)
    (hs : e.state = States_t.TX ∨ e.state = States_t.TX_ERROR ∨ e.state = States_t.TX_TIMEOUT) :
    PingPongStep e o = RxLora e RX_TIMEOUT_VALUE o.recv := by
  unfold PingPongStep
  rcases hs with hs | hs | hs <;> simp [hs]

theorem shift_mask_eq (c k : Nat) : (c >>> k) &&& 0xFF = c / 2 ^ k % 256 := by
  have e : (0xFF : Nat) = 2 ^ 8 - 1 := by norm_num
  rw [e, Nat.and_pow_two_sub_one_eq_mod, Nat.shiftRight_eq_div_pow]

theorem pingBuffer_counter (e : Engine) :
    pingBuffer e 4 = (e.pingCounter + 1) % 2 ^ 32 / 2 ^ 24 % 256 ∧
    pingBuffer e 5 = (e.pingCounter + 1) % 2 ^ 32 / 2 ^ 16 % 256 ∧
    pingBuffer e 6 = (e.pingCounter + 1) % 2 ^ 32 / 2 ^ 8 % 256 ∧
    pingBuffer e 7 = (e.pingCounter + 1) % 2 ^ 32 % 256 := by
  unfold pingBuffer
  simp only [fillPayload_low _ _ _ (show 4 < 8 by norm_num),
    fillPayload_low _ _ _ (show 5 < 8 by norm_num), fillPayload_low _ _ _ (show 6 < 8 by norm_num),
    fillPayload_low _ _ _ (show 7 < 8 by norm_num), shift_mask_eq]
  simp [Function.update]

theorem pingBuffer_filler (e : Engine) (i : Nat) (h8 : 8 ≤ i) (hi : i < e.bufferSize) :
    pingBuffer e i = (i - 8) % 256 := by
  unfold pingBuffer
  rw [fillPayload_apply, if_pos ⟨h8, hi⟩]
  norm_num

/-! ## Properties of every loop iteration -/

theorem RxLora_bufferSize (e : Engine) (t : Nat) (r : RecvResult) :
    (RxLora e t r).1.bufferSize = e.bufferSize ∨
      (0 ≤ r.size ∧ (RxLora e t r).1.bufferSize = r.size.toNat % 2 ^ 16) := by
  unfold RxLora
  split_ifs with h1 h2
  · exact Or.inl rfl
  · exact Or.inl rfl
  · exact Or.inr ⟨by omega, rfl⟩

theorem RxLora_state (e : Engine) (t : Nat) (r : RecvResult) :
    (RxLora e t r).1.state = States_t.RX ∨ (RxLora e t r).1.state = States_t.RX_TIMEOUT ∨
      (RxLora e t r).1.state = States_t.RX_ERROR := by
  unfold RxLora
  split_ifs <;> simp

theorem step_lowpower (e : Engine) (o : RadioOutcome) (hs : e.state = States_t.LOWPOWER) :
    PingPongStep e o = (e, []) := by
  unfold PingPongStep
  simp [hs]

/-- The seven shapes of one loop iteration. -/
theorem step_cases (e : Engine) (o : RadioOutcome) :
    (e.state = States_t.LOWPOWER ∧ PingPongStep e o = (e, [])) ∨
    (e.state = States_t.RX ∧ e.bufferSize = 0 ∧
      PingPongStep e o
        = ({ e with state := States_t.LOWPOWER }, [Effect.setState States_t.LOWPOWER])) ∨
    (e.state = States_t.RX ∧ 0 < e.bufferSize ∧ ∃ m : Bool,
      PingPongStep e o =
        ((RxLora { e with state := States_t.LOWPOWER, isMaster := m } RX_TIMEOUT_VALUE o.recv).1,
         Effect.setState States_t.LOWPOWER ::
          (RxLora { e with state := States_t.LOWPOWER, isMaster := m }
            RX_TIMEOUT_VALUE o.recv).2)) ∨
    (e.state ≠ States_t.RX ∧ e.state ≠ States_t.LOWPOWER ∧
      PingPongStep e o = RxLora e RX_TIMEOUT_VALUE o.recv) ∨
    (e.state = States_t.RX ∧ 0 < e.bufferSize ∧ e.isMaster = true ∧
      PingPongStep e o =
        ((SendPing { e with state := States_t.LOWPOWER, rxCounter := decodeCounter e.buffer }
            o.sendRet).1,
         Effect.setState States_t.LOWPOWER :: Effect.kSleep TX_TIME_VALUE ::
          (SendPing { e with state := States_t.LOWPOWER, rxCounter := decodeCounter e.buffer }
            o.sendRet).2)) ∨
    ((e.state = States_t.RX_TIMEOUT ∨ e.state = States_t.RX_ERROR) ∧ e.isMaster = true ∧
      PingPongStep e o = SendPing e o.sendRet) ∨
    (e.state = States_t.RX ∧ 0 < e.bufferSize ∧ e.isMaster = false ∧
      (PingPongStep e o).2 =
        [Effect.setState States_t.LOWPOWER, Effect.kSleep 1,
         Effect.send ((List.range (e.bufferSize % 2 ^ 8)).map
           (Function.update (Function.update (Function.update (Function.update e.buffer 0 80)
              1 79) 2 78) 3 71)),
         Effect.radioSleep,
         Effect.setState (if o.sendRet < 0 then States_t.TX_ERROR else States_t.TX)] ∧
      (PingPongStep e o).1.isMaster = false ∧
      (PingPongStep e o).1.pingCounter = e.pingCounter ∧
      (PingPongStep e o).1.bufferSize = e.bufferSize ∧
      (PingPongStep e o).1.state
        = (if o.sendRet < 0 then States_t.TX_ERROR else States_t.TX)) := by
  cases hs : e.state
  · exact Or.inl ⟨rfl, step_lowpower e o hs⟩
  · rcases Nat.eq_zero_or_pos e.bufferSize with hb | hb
    · exact Or.inr (Or.inl ⟨rfl, hb, step_RX_empty e o hs hb⟩)
    · rcases Bool.eq_false_or_eq_true e.isMaster with hm | hm
      · by_cases hpong : strncmp e.buffer pongMsg 4 = 0
        · exact Or.inr (Or.inr (Or.inr (Or.inr (Or.inl
            ⟨rfl, hb, hm, step_RX_master_pong e o hs hm hb hpong⟩))))
        · by_cases hping : strncmp e.buffer pingMsg 4 = 0
          · exact Or.inr (Or.inr (Or.inl
              ⟨rfl, hb, false, step_RX_master_ping e o hs hm hb hpong hping⟩))
          · exact Or.inr (Or.inr (Or.inl
              ⟨rfl, hb, true, step_RX_master_other e o hs hm hb hpong hping⟩))
      · by_cases hping : strncmp e.buffer pingMsg 4 = 0
        · exact Or.inr (Or.inr (Or.inr (Or.inr (Or.inr (Or.inr
            ⟨rfl, hb, hm, step_RX_slave_ping e o hs hm hb hping⟩)))))
        · exact Or.inr (Or.inr (Or.inl
            ⟨rfl, hb, true, step_RX_slave_other e o hs hm hb hping⟩))
  · rcases Bool.eq_false_or_eq_true e.isMaster with hm | hm
    · exact Or.inr (Or.inr (Or.inr (Or.inr (Or.inr (Or.inl
        ⟨Or.inl rfl, hm, step_rxfail_master e o (Or.inl hs) hm⟩)))))
    · exact Or.inr (Or.inr (Or.inr (Or.inl
        ⟨by simp, by simp, step_rxfail_slave e o (Or.inl hs) hm⟩)))
  · rcases Bool.eq_false_or_eq_true e.isMaster with hm | hm
    · exact Or.inr (Or.inr (Or.inr (Or.inr (Or.inr (Or.inl
        ⟨Or.inr rfl, hm, step_rxfail_master e o (Or.inr hs) hm⟩)))))
    · exact Or.inr (Or.inr (Or.inr (Or.inl
        ⟨by simp, by simp, step_rxfail_slave e o (Or.inr hs) hm⟩)))
  · exact Or.inr (Or.inr (Or.inr (Or.inl ⟨by simp, by simp, step_tx e o (Or.inl hs)⟩)))
  · exact Or.inr (Or.inr (Or.inr (Or.inl
      ⟨by simp, by simp, step_tx e o (Or.inr (Or.inr hs))⟩)))
  · exact Or.inr (Or.inr (Or.inr (Or.inl
      ⟨by simp, by simp, step_tx e o (Or.inr (Or.inl hs))⟩)))

/-- The ping counter after a loop iteration: unchanged, or incremented modulo
`2^32` by an Initiator. -/
theorem step_pingCounter (e : Engine) (o : RadioOutcome) :
    (PingPongStep e o).1.pingCounter = e.pingCounter ∨
      (e.isMaster = true ∧ (PingPongStep e o).1.pingCounter = (e.pingCounter + 1) % 2 ^ 32) := by
  rcases step_cases e o with ⟨-, h⟩ | ⟨-, -, h⟩ | ⟨-, -, m, h⟩ | ⟨-, -, h⟩ | ⟨-, -, hm, h⟩ |
    ⟨-, hm, h⟩ | ⟨-, -, -, -, -, h, -, -⟩
  · rw [h]; exact Or.inl rfl
  · rw [h]; exact Or.inl rfl
  · rw [h]; exact Or.inl (RxLora_pingCounter _ _ _)
  · rw [h]; exact Or.inl (RxLora_pingCounter _ _ _)
  · rw [h]; exact Or.inr ⟨hm, (SendPing_facts _ _).2.1⟩
  · rw [h]; exact Or.inr ⟨hm, (SendPing_facts _ _).2.1⟩
  · exact Or.inl h

/-- The `bufferSize` after a loop iteration: unchanged, or the size returned by
a successful receive. -/
theorem step_bufferSize (e : Engine) (o : RadioOutcome) :
    (PingPongStep e o).1.bufferSize = e.bufferSize ∨
      (0 ≤ o.recv.size ∧ (PingPongStep e o).1.bufferSize = o.recv.size.toNat % 2 ^ 16) := by
  rcases step_cases e o with ⟨-, h⟩ | ⟨-, -, h⟩ | ⟨-, -, m, h⟩ | ⟨-, -, h⟩ | ⟨-, -, hm, h⟩ |
    ⟨-, hm, h⟩ | ⟨-, -, -, -, -, -, h, -⟩
  · rw [h]; exact Or.inl rfl
  · rw [h]; exact Or.inl rfl
  · rw [h]; exact RxLora_bufferSize _ _ _
  · rw [h]; exact RxLora_bufferSize _ _ _
  · rw [h]; exact Or.inl (SendPing_facts _ _).2.2.1
  · rw [h]; exact Or.inl (SendPing_facts _ _).2.2.1
  · exact Or.inl h

/-- No loop iteration writes `TX_TIMEOUT` to `state`. -/
theorem step_no_tx_timeout (e : Engine) (o : RadioOutcome) :
    Effect.setState States_t.TX_TIMEOUT ∉ (PingPongStep e o).2 ∧
      ((PingPongStep e o).1.state = e.state ∨ (PingPongStep e o).1.state ≠ States_t.TX_TIMEOUT) := by
  have hrx : ∀ (e1 : Engine),
      Effect.setState States_t.TX_TIMEOUT ∉ (RxLora e1 RX_TIMEOUT_VALUE o.recv).2 ∧
      (RxLora e1 RX_TIMEOUT_VALUE o.recv).1.state ≠ States_t.TX_TIMEOUT := by
    intro e1
    unfold RxLora
    split_ifs <;> simp
  have hsp : ∀ (e1 : Engine),
      Effect.setState States_t.TX_TIMEOUT ∉ (SendPing e1 o.sendRet).2 ∧
      (SendPing e1 o.sendRet).1.state ≠ States_t.TX_TIMEOUT := by
    intro e1
    rw [SendPing_eq]
    split_ifs <;> simp
  rcases step_cases e o with ⟨-, h⟩ | ⟨-, -, h⟩ | ⟨-, -, m, h⟩ | ⟨-, -, h⟩ | ⟨-, -, hm, h⟩ |
    ⟨-, hm, h⟩ | ⟨-, -, -, h, -, -, -, h2⟩
  · rw [h]; simp
  · rw [h]; simp
  · rw [h]; exact ⟨by simp [(hrx _).1], Or.inr (hrx _).2⟩
  · rw [h]; exact ⟨(hrx _).1, Or.inr (hrx _).2⟩
  · rw [h]; exact ⟨by simp [(hsp _).1], Or.inr (hsp _).2⟩
  · rw [h]; exact ⟨(hsp _).1, Or.inr (hsp _).2⟩
  · rw [h, h2]
    refine ⟨?_, Or.inr ?_⟩ <;> split_ifs <;> simp

/-! ## Properties of runs of the loop -/

theorem recvCount_append (a b : List Effect) :
    recvCount (a ++ b) = recvCount a + recvCount b := by
  induction a with
  | nil => simp [recvCount]
  | cons x t ih =>
    cases x
    all_goals simp [recvCount, ih]
    omega

theorem loop_cons (e : Engine) (o : RadioOutcome) (os : List RadioOutcome) :
    PingPongLoop e (o :: os) =
      ((PingPongLoop (PingPongStep e o).1 os).1,
       (PingPongStep e o).2 ++ (PingPongLoop (PingPongStep e o).1 os).2) := rfl

theorem loop_lowpower (os : List RadioOutcome) :
    ∀ e : Engine, e.state = States_t.LOWPOWER → PingPongLoop e os = (e, []) := by
  induction os with
  | nil => intro e _; rfl
  | cons o os ih =>
    intro e hs
    rw [loop_cons, step_lowpower e o hs, ih e hs]
    rfl

theorem loop_bufferSize_le (os : List RadioOutcome) :
    ∀ e : Engine, e.bufferSize ≤ BUFFER_SIZE → (∀ o ∈ os, sizeOk o.recv) →
      (PingPongLoop e os).1.bufferSize ≤ BUFFER_SIZE := by
  induction os with
  | nil => intro e h _; exact h
  | cons o os ih =>
    intro e h hos
    rw [loop_cons]
    apply ih _ _ (fun o2 ho2 => hos o2 (List.mem_cons_of_mem _ ho2))
    have hso : sizeOk o.recv := hos o (List.mem_cons_self _ _)
    unfold sizeOk BUFFER_SIZE at *
    rcases step_bufferSize e o with hb | ⟨h0, hb⟩
    · rw [hb]; exact h
    · rw [hb]
      have : o.recv.size.toNat ≤ 64 := by omega
      exact le_trans (Nat.mod_le _ _) this

theorem loop_no_tx_timeout (os : List RadioOutcome) :
    ∀ e : Engine, e.state ≠ States_t.TX_TIMEOUT →
      (PingPongLoop e os).1.state ≠ States_t.TX_TIMEOUT ∧
      Effect.setState States_t.TX_TIMEOUT ∉ (PingPongLoop e os).2 := by
  induction os with
  | nil => intro e h; exact ⟨h, by simp [PingPongLoop]⟩
  | cons o os ih =>
    intro e h
    rw [loop_cons]
    obtain ⟨s1, s2⟩ := step_no_tx_timeout e o
    have hnext : (PingPongStep e o).1.state ≠ States_t.TX_TIMEOUT := by
      rcases s2 with s2 | s2
      · rw [s2]; exact h
      · exact s2
    obtain ⟨i1, i2⟩ := ih _ hnext
    refine ⟨i1, ?_⟩
    intro hmem
    rw [List.mem_append] at hmem
    rcases hmem with hmem | hmem
    · exact s1 hmem
    · exact i2 hmem

/-- A loop iteration that does not start idle and does not start in `RX` with
an empty frame issues exactly one radio operation and does not end idle. -/
theorem step_progress (e : Engine) (o : RadioOutcome) (hs : e.state ≠ States_t.LOWPOWER)
    (hb : e.state = States_t.RX → 0 < e.bufferSize) :
    recvCount (PingPongStep e o).2 + (sentFrames (PingPongStep e o).2).length = 1 ∧
      (PingPongStep e o).1.state ≠ States_t.LOWPOWER := by
  have hrx : ∀ (e1 : Engine), (RxLora e1 RX_TIMEOUT_VALUE o.recv).1.state ≠ States_t.LOWPOWER := by
    intro e1
    rcases RxLora_state e1 RX_TIMEOUT_VALUE o.recv with h | h | h <;> rw [h] <;> simp
  have hsp : ∀ (e1 : Engine), (SendPing e1 o.sendRet).1.state ≠ States_t.LOWPOWER := by
    intro e1
    rw [SendPing_eq]
    split_ifs <;> simp
  rcases step_cases e o with ⟨h0, -⟩ | ⟨h0, h1, -⟩ | ⟨-, -, m, h⟩ | ⟨-, -, h⟩ | ⟨-, -, hm, h⟩ |
    ⟨-, hm, h⟩ | ⟨-, -, -, h, -, -, -, h2⟩
  · exact absurd h0 hs
  · have := hb h0
    omega
  · rw [h]
    exact ⟨by simp [recvCount, sentFrames, RxLora_recvCount, RxLora_sentFrames], hrx _⟩
  · rw [h]
    exact ⟨by simp [RxLora_recvCount, RxLora_sentFrames], hrx _⟩
  · rw [h]
    refine ⟨?_, hsp _⟩
    obtain ⟨-, -, -, f4, f5⟩ := SendPing_facts
      { e with state := States_t.LOWPOWER, rxCounter := decodeCounter e.buffer } o.sendRet
    show recvCount (SendPing
        { e with state := States_t.LOWPOWER, rxCounter := decodeCounter e.buffer } o.sendRet).2 +
      (sentFrames (SendPing
        { e with state := States_t.LOWPOWER, rxCounter := decodeCounter e.buffer }
        o.sendRet).2).length = 1
    rw [f4, f5]
    rfl
  · rw [h]
    obtain ⟨-, -, -, f4, f5⟩ := SendPing_facts e o.sendRet
    exact ⟨by rw [f4, f5]; rfl, hsp _⟩
  · rw [h, h2]
    refine ⟨by simp [recvCount, sentFrames], ?_⟩
    split_ifs <;> simp

theorem PingPong_eq (e : Engine) (r : RecvResult) (os : List RadioOutcome) :
    PingPong e r os =
      ((PingPongLoop (PingPongStart e r).1 os).1,
       (PingPongStart e r).2 ++ (PingPongLoop (PingPongStart e r).1 os).2) := rfl

theorem start_bufferSize (r : RecvResult) :
    (PingPongStart boot r).1.bufferSize = BUFFER_SIZE ∨
      (0 ≤ r.size ∧ (PingPongStart boot r).1.bufferSize = r.size.toNat % 2 ^ 16) :=
  RxLora_bufferSize _ _ _

theorem SendPing_frame_condition (e : Engine) (ret : Int) (j : Nat)
    (hj : j ∉ SendPingOffsets e.bufferSize) : (SendPing e ret).1.buffer j = e.buffer j := by
  have h8 : 8 ≤ j := by
    by_contra hlt
    apply hj
    simp only [SendPingOffsets, List.mem_append, List.mem_cons]
    left
    omega
  have hn : ¬ (8 ≤ j ∧ j < e.bufferSize) := by
    rintro ⟨-, hlt⟩
    apply hj
    simp only [SendPingOffsets, List.mem_append, List.mem_range']
    right
    exact ⟨j - 8, by omega, by omega⟩
  rw [SendPing_eq]
  show pingBuffer e j = e.buffer j
  unfold pingBuffer
  rw [fillPayload_apply, if_neg hn]
  rw [Function.update_noteq (by omega), Function.update_noteq (by omega),
    Function.update_noteq (by omega), Function.update_noteq (by omega),
    Function.update_noteq (by omega), Function.update_noteq (by omega),
    Function.update_noteq (by omega), Function.update_noteq (by omega)]

/-! ## The join loop of the class A application -/

theorem joinLoop_ge (res : Nat → Int) (i n : Nat) (h : 16 ≤ i) : joinLoop res i n = [] := by
  rw [joinLoop]
  simp [Nat.not_lt.mpr h]

theorem joinCount_append (a b : List JoinEffect) :
    joinCount (a ++ b) = joinCount a + joinCount b := by
  induction a with
  | nil => simp [joinCount]
  | cons x t ih =>
    cases x
    all_goals simp [joinCount, ih]
    omega

theorem joinLoop_shape (res : Nat → Int) (d : Nat) : ∀ i, i + d = 16 →
    ∃ m, i ≤ m ∧ m ≤ 16 ∧ (i < 16 → i < m) ∧
      joinLoop res i i = (List.range' i (m - i)).flatMap (attemptTrace res) ∧
      joinCount (joinLoop res i i) = m - i ∧
      (∀ k, i ≤ k → k + 1 < m → res k < 0) ∧
      (i < 16 → m < 16 → 0 ≤ res (m - 1)) := by
  induction d with
  | zero =>
    intro i hi
    have h16 : i = 16 := by omega
    subst h16
    refine ⟨16, le_refl _, le_refl _, by omega, ?_, ?_, ?_, by omega⟩
    · rw [joinLoop_ge res 16 16 (le_refl _)]; rfl
    · rw [joinLoop_ge res 16 16 (le_refl _)]; rfl
    · intro k h1 h2; omega
  | succ d ih =>
    intro i hi
    have hlt : i < 16 := by omega
    by_cases hr : res i < 0
    · obtain ⟨m, m1, m2, m3, m4, m5, m6, m7⟩ := ih (i + 1) (by omega)
      have hsplit : m - i = (m - (i + 1)) + 1 := by omega
      refine ⟨m, by omega, m2, fun _ => by omega, ?_, ?_, ?_, ?_⟩
      · rw [hsplit, List.range'_succ, List.flatMap_cons, ← m4]
        rw [joinLoop]
        by_cases hodd : i % 2 = 1 <;> simp [hlt, hr, hodd, attemptTrace]
      · rw [joinLoop]
        by_cases hodd : i % 2 = 1 <;> simp [hlt, hr, hodd, joinCount, m5] <;> omega
      · intro k h1 h2
        rcases Nat.eq_or_lt_of_le h1 with h | h
        · rw [← h]; exact hr
        · exact m6 k h h2
      · intro _ hm
        by_cases h15 : i + 1 < 16
        · exact m7 h15 hm
        · omega
    · refine ⟨i + 1, by omega, by omega, fun _ => by omega, ?_, ?_, ?_, ?_⟩
      · rw [joinLoop]
        have h1 : i + 1 - i = 1 := by omega
        rw [h1]
        simp [hlt, hr, attemptTrace, joinLoop_ge]
      · rw [joinLoop]
        simp [hlt, hr, joinCount, joinLoop_ge]
      · intro k h1 h2; omega
      · intro _ _
        simp only [Nat.add_sub_cancel]
        omega

/-! ## Claims -/

/-- C1: counter round trip.  For every counter value and every frame length
from 8 up to the buffer size, `SendPing` hands exactly one frame of that
length to the radio, and the receive-side big-endian decode of bytes 4..7 of
that frame is the 32-bit counter value `SendPing` stored and encoded (the
incremented `pingCounter`). -/
theorem C1_counter_round_trip (e : Engine) (ret : Int)
    (h8 : 8 ≤ e.bufferSize) (h64 : e.bufferSize ≤ BUFFER_SIZE) :
    ∃ frame, sentFrames (SendPing e ret).2 = [frame] ∧ frame.length = e.bufferSize ∧
      decodeCounter (frameBytes frame) = (e.pingCounter + 1) % 2 ^ 32 ∧
      decodeCounter (frameBytes frame) = (SendPing e ret).1.pingCounter := by
  have hm : e.bufferSize % 2 ^ 8 = e.bufferSize := by
    unfold BUFFER_SIZE at h64
    exact Nat.mod_eq_of_lt (by omega)
  have hd : decodeCounter (frameBytes ((List.range e.bufferSize).map (pingBuffer e)))
      = (e.pingCounter + 1) % 2 ^ 32 := by
    rw [← decodeCounter_pingBuffer e]
    apply decodeCounter_congr <;> apply frameBytes_map_range <;> omega
  refine ⟨(List.range e.bufferSize).map (pingBuffer e), ?_, ?_, hd, ?_⟩
  · rw [SendPing_eq, hm]; rfl
  · simp
  · rw [hd, SendPing_eq]

/-- Witness of C1 at the boot state (64-byte frame, counter 0 becoming 1). -/
theorem C1_counter_round_trip_witness :
    8 ≤ boot.bufferSize ∧ boot.bufferSize ≤ BUFFER_SIZE ∧
    ∃ frame, sentFrames (SendPing boot 0).2 = [frame] ∧ frame.length = boot.bufferSize ∧
      decodeCounter (frameBytes frame) = (boot.pingCounter + 1) % 2 ^ 32 ∧
      decodeCounter (frameBytes frame) = (SendPing boot 0).1.pingCounter :=
  ⟨by decide, by decide, C1_counter_round_trip boot 0 (by decide) (by decide)⟩

/-- C2: PONG echo.  A Responder that has received a frame of length `n`
(at most the buffer size) whose first four bytes are `PING` transmits in the
next loop step exactly one frame: `PONG` followed by bytes `4..n-1` of the
received frame, unchanged; the frame has length `n` and the role stays
Responder. -/
theorem C2_pong_echo (e0 : Engine) (f : List Nat) (rssi snr : Int) (o : RadioOutcome)
    (hrole : e0.isMaster = false) (hn : 0 < f.length) (h64 : f.length ≤ BUFFER_SIZE)
    (hbytes : ∀ b ∈ f, b < 256) (htag : f.take 4 = [80, 73, 78, 71]) :
    sentFrames (PingPongStep (RxLora e0 RX_TIMEOUT_VALUE (received f rssi snr)).1 o).2
        = [[80, 79, 78, 71] ++ f.drop 4] ∧
      ([80, 79, 78, 71] ++ f.drop 4).length = f.length ∧
      (PingPongStep (RxLora e0 RX_TIMEOUT_VALUE (received f rssi snr)).1 o).1.isMaster = false := by
  have hf := tag_split f _ _ _ _ htag
  generalize f.drop 4 = g at hf
  subst hf
  unfold BUFFER_SIZE at h64
  have hl : (80 :: 73 :: 78 :: 71 :: g).length = g.length + 4 := by simp
  rw [hl] at h64
  have hlen : (g.length + 4) % 2 ^ 16 = g.length + 4 := Nat.mod_eq_of_lt (by norm_num; omega)
  have hlen8 : (g.length + 4) % 2 ^ 8 = g.length + 4 := Nat.mod_eq_of_lt (by norm_num; omega)
  rw [RxLora_received, hl, hlen]
  have hping : strncmp (recvInto e0.buffer (80 :: 73 :: 78 :: 71 :: g)) pingMsg 4 = 0 := by
    rw [strncmp_ping_iff]
    refine ⟨?_, ?_, ?_, ?_⟩ <;> simp [recvInto]
  obtain ⟨htr, hmaster, -, -, -⟩ := step_RX_slave_ping
    { e0 with buffer := recvInto e0.buffer (80 :: 73 :: 78 :: 71 :: g), rssiValue := rssi,
              snrValue := snr, bufferSize := g.length + 4, state := States_t.RX }
    o rfl hrole (Nat.succ_pos _) hping
  refine ⟨?_, by simp, hmaster⟩
  rw [htr]
  simp only [sentFrames, hlen8]
  congr 1
  have hl2 : ([80, 79, 78, 71] ++ g).length = g.length + 4 := by simp
  rw [← hl2]
  apply map_range_eq_of_getD
  intro i hi
  rw [hl2] at hi
  rcases i with _ | _ | _ | _ | j
  · simp
  · simp
  · simp
  · simp
  · have hj2 : j < g.length := by omega
    have hb : g[j] < 256 := hbytes _ (by simp [List.getElem_mem])
    simp [Function.update, recvInto, hj2, List.getD_eq_getElem, Nat.mod_eq_of_lt hb]

/-- Witness of C2: a Responder at boot values receives the 8-byte frame
`PING` with counter 1. -/
theorem C2_pong_echo_witness :
    sentFrames (PingPongStep (RxLora { boot with isMaster := false } RX_TIMEOUT_VALUE
        (received [80, 73, 78, 71, 0, 0, 0, 1] 0 0)).1 ⟨received [] 0 0, 0⟩).2
        = [[80, 79, 78, 71] ++ [80, 73, 78, 71, 0, 0, 0, 1].drop 4] ∧
      ([80, 79, 78, 71] ++ [80, 73, 78, 71, 0, 0, 0, 1].drop 4).length
        = [80, 73, 78, 71, 0, 0, 0, 1].length ∧
      (PingPongStep (RxLora { boot with isMaster := false } RX_TIMEOUT_VALUE
        (received [80, 73, 78, 71, 0, 0, 0, 1] 0 0)).1 ⟨received [] 0 0, 0⟩).1.isMaster = false :=
  C2_pong_echo { boot with isMaster := false } [80, 73, 78, 71, 0, 0, 0, 1] 0 0
    ⟨received [] 0 0, 0⟩ rfl (by decide) (by decide) (by decide) rfl

/-- C3 fails as stated at two inputs.  (1) An Initiator at boot values that
receives the 4-byte frame `PONG` transmits the 4-byte frame `PING`: the
transmitted frame has no counter bytes.  (2) An Initiator whose ping counter
is `2^32 - 1` and that receives an 8-byte PONG transmits a PING with counter
0, which is not 1 greater. -/
theorem C3_counterexample :
    sentFrames (PingPongStep (RxLora boot RX_TIMEOUT_VALUE (received [80, 79, 78, 71] 0 0)).1
        ⟨received [] 0 0, 0⟩).2 = [[80, 73, 78, 71]] ∧
    sentFrames (PingPongStep (RxLora { boot with pingCounter := 4294967295 } RX_TIMEOUT_VALUE
        (received [80, 79, 78, 71, 255, 255, 255, 255] 0 0)).1 ⟨received [] 0 0, 0⟩).2
      = [[80, 73, 78, 71, 0, 0, 0, 0]] := by
  constructor <;> decide

/-- C3 (amended): an Initiator that has received a frame with tag `PONG` and
length `n` with `8 ≤ n ≤ 64` stays Initiator and transmits in the next loop
step exactly one frame, of length `n`, with tag `PING` and with counter
`(pingCounter + 1) mod 2^32`, where `pingCounter` is the counter of the
previously sent PING; that value is also the new `pingCounter`. -/
theorem C3_initiator_pong (e0 : Engine) (f : List Nat) (rssi snr : Int) (o : RadioOutcome)
    (hrole : e0.isMaster = true) (h8 : 8 ≤ f.length) (h64 : f.length ≤ BUFFER_SIZE)
    (htag : f.take 4 = [80, 79, 78, 71]) :
    (PingPongStep (RxLora e0 RX_TIMEOUT_VALUE (received f rssi snr)).1 o).1.isMaster = true ∧
    (PingPongStep (RxLora e0 RX_TIMEOUT_VALUE (received f rssi snr)).1 o).1.pingCounter
      = (e0.pingCounter + 1) % 2 ^ 32 ∧
    ∃ frame,
      sentFrames (PingPongStep (RxLora e0 RX_TIMEOUT_VALUE (received f rssi snr)).1 o).2 = [frame] ∧
      frame.length = f.length ∧
      strncmp (frameBytes frame) pingMsg 4 = 0 ∧
      decodeCounter (frameBytes frame) = (e0.pingCounter + 1) % 2 ^ 32 := by
  have hlen : f.length % 2 ^ 16 = f.length := by
    unfold BUFFER_SIZE at h64
    exact Nat.mod_eq_of_lt (by norm_num; omega)
  have hpong : strncmp (recvInto e0.buffer f) pongMsg 4 = 0 := by
    have hf := tag_split f _ _ _ _ htag
    rw [strncmp_pong_iff, hf]
    refine ⟨?_, ?_, ?_, ?_⟩ <;> simp [recvInto]
  rw [RxLora_received, hlen]
  dsimp only
  rw [step_RX_master_pong
    { e0 with buffer := recvInto e0.buffer f, rssiValue := rssi, snrValue := snr,
              bufferSize := f.length, state := States_t.RX }
    o rfl hrole (by show 0 < f.length; omega) hpong]
  obtain ⟨m1, m2, -, -, -⟩ := SendPing_facts
    { e0 with buffer := recvInto e0.buffer f, rssiValue := rssi, snrValue := snr,
              bufferSize := f.length, state := States_t.LOWPOWER,
              rxCounter := decodeCounter (recvInto e0.buffer f) } o.sendRet
  obtain ⟨frame, s1, s2, s3, s4⟩ := SendPing_sends
    { e0 with buffer := recvInto e0.buffer f, rssiValue := rssi, snrValue := snr,
              bufferSize := f.length, state := States_t.LOWPOWER,
              rxCounter := decodeCounter (recvInto e0.buffer f) } o.sendRet h8 h64
  refine ⟨?_, ?_, frame, ?_, s2, s3, s4⟩
  · exact m1.trans hrole
  · exact m2
  · simpa [sentFrames] using s1

/-- Witness of C3 (amended): the boot engine receives an 8-byte PONG with
counter 0. -/
theorem C3_initiator_pong_witness :
    (PingPongStep (RxLora boot RX_TIMEOUT_VALUE
      (received [80, 79, 78, 71, 0, 0, 0, 0] 0 0)).1 ⟨received [] 0 0, 0⟩).1.isMaster = true ∧
    (PingPongStep (RxLora boot RX_TIMEOUT_VALUE
      (received [80, 79, 78, 71, 0, 0, 0, 0] 0 0)).1 ⟨received [] 0 0, 0⟩).1.pingCounter
      = (boot.pingCounter + 1) % 2 ^ 32 ∧
    ∃ frame,
      sentFrames (PingPongStep (RxLora boot RX_TIMEOUT_VALUE
        (received [80, 79, 78, 71, 0, 0, 0, 0] 0 0)).1 ⟨received [] 0 0, 0⟩).2 = [frame] ∧
      frame.length = [80, 79, 78, 71, 0, 0, 0, 0].length ∧
      strncmp (frameBytes frame) pingMsg 4 = 0 ∧
      decodeCounter (frameBytes frame) = (boot.pingCounter + 1) % 2 ^ 32 :=
  C3_initiator_pong boot [80, 79, 78, 71, 0, 0, 0, 0] 0 0 ⟨received [] 0 0, 0⟩
    rfl (by decide) (by decide) rfl

/-- C4 fails as stated: an Initiator at boot values that receives the 8-byte
frame `PING` with counter 1 becomes Responder but transmits nothing in that
loop step; it issues one receive instead. -/
theorem C4_counterexample :
    sentFrames (PingPongStep (RxLora boot RX_TIMEOUT_VALUE
        (received [80, 73, 78, 71, 0, 0, 0, 1] 0 0)).1 ⟨⟨-11, [], 0, 0⟩, 0⟩).2 = [] ∧
    recvCount (PingPongStep (RxLora boot RX_TIMEOUT_VALUE
        (received [80, 73, 78, 71, 0, 0, 0, 1] 0 0)).1 ⟨⟨-11, [], 0, 0⟩, 0⟩).2 = 1 ∧
    (PingPongStep (RxLora boot RX_TIMEOUT_VALUE
        (received [80, 73, 78, 71, 0, 0, 0, 1] 0 0)).1 ⟨⟨-11, [], 0, 0⟩, 0⟩).1.isMaster
      = false := by
  refine ⟨?_, ?_, ?_⟩ <;> decide

/-- C4 (amended): an Initiator that has received a non-empty frame (of at
most 64 bytes) with tag `PING` changes its role to Responder in the next loop
step, transmits nothing in that step, issues exactly one receive and leaves
the ping counter unchanged. -/
theorem C4_initiator_ping (e0 : Engine) (f : List Nat) (rssi snr : Int) (o : RadioOutcome)
    (hrole : e0.isMaster = true) (h64 : f.length ≤ BUFFER_SIZE)
    (htag : f.take 4 = [80, 73, 78, 71]) :
    (PingPongStep (RxLora e0 RX_TIMEOUT_VALUE (received f rssi snr)).1 o).1.isMaster = false ∧
    sentFrames (PingPongStep (RxLora e0 RX_TIMEOUT_VALUE (received f rssi snr)).1 o).2 = [] ∧
    recvCount (PingPongStep (RxLora e0 RX_TIMEOUT_VALUE (received f rssi snr)).1 o).2 = 1 ∧
    (PingPongStep (RxLora e0 RX_TIMEOUT_VALUE (received f rssi snr)).1 o).1.pingCounter
      = e0.pingCounter := by
  have hf := tag_split f _ _ _ _ htag
  have h4 : 4 ≤ f.length := by rw [hf]; simp
  have hlen : f.length % 2 ^ 16 = f.length := by
    unfold BUFFER_SIZE at h64
    exact Nat.mod_eq_of_lt (by norm_num; omega)
  have hping : strncmp (recvInto e0.buffer f) pingMsg 4 = 0 := by
    rw [strncmp_ping_iff, hf]
    refine ⟨?_, ?_, ?_, ?_⟩ <;> simp [recvInto]
  have hpong : strncmp (recvInto e0.buffer f) pongMsg 4 ≠ 0 := by
    rw [Ne, strncmp_pong_iff, hf]
    simp [recvInto]
  rw [RxLora_received, hlen]
  dsimp only
  rw [step_RX_master_ping
    { e0 with buffer := recvInto e0.buffer f, rssiValue := rssi, snrValue := snr,
              bufferSize := f.length, state := States_t.RX }
    o rfl hrole (by show 0 < f.length; omega) hpong hping]
  refine ⟨?_, ?_, ?_, ?_⟩
  · rw [RxLora_isMaster]
  · simp [sentFrames, RxLora_sentFrames]
  · simp [recvCount, RxLora_recvCount]
  · rw [RxLora_pingCounter]

/-- Witness of C4 (amended): the boot engine receives an 8-byte PING. -/
theorem C4_initiator_ping_witness :
    (PingPongStep (RxLora boot RX_TIMEOUT_VALUE
      (received [80, 73, 78, 71, 0, 0, 0, 1] 0 0)).1 ⟨received [] 0 0, 0⟩).1.isMaster = false ∧
    sentFrames (PingPongStep (RxLora boot RX_TIMEOUT_VALUE
      (received [80, 73, 78, 71, 0, 0, 0, 1] 0 0)).1 ⟨received [] 0 0, 0⟩).2 = [] ∧
    recvCount (PingPongStep (RxLora boot RX_TIMEOUT_VALUE
      (received [80, 73, 78, 71, 0, 0, 0, 1] 0 0)).1 ⟨received [] 0 0, 0⟩).2 = 1 ∧
    (PingPongStep (RxLora boot RX_TIMEOUT_VALUE
      (received [80, 73, 78, 71, 0, 0, 0, 1] 0 0)).1 ⟨received [] 0 0, 0⟩).1.pingCounter
      = boot.pingCounter :=
  C4_initiator_ping boot [80, 73, 78, 71, 0, 0, 0, 1] 0 0 ⟨received [] 0 0, 0⟩
    rfl (by decide) rfl

/-- C5: a loop step of a Responder in state `RX_TIMEOUT` or `RX_ERROR`
leaves the role Responder and the ping counter unchanged, transmits nothing
and issues exactly one receive; the buffer handed to that receive is the
buffer as it was before the step, so the buffer after the step is that
buffer with whatever the driver copied into it (unchanged if it copied
nothing). -/
theorem C5_responder_rx_failure (e : Engine) (o : RadioOutcome)
    (hrole : e.isMaster = false)
    (hs : e.state = States_t.RX_TIMEOUT ∨ e.state = States_t.RX_ERROR) :
    (PingPongStep e o).1.isMaster = false ∧
    (PingPongStep e o).1.pingCounter = e.pingCounter ∧
    (PingPongStep e o).1.buffer = recvInto e.buffer o.recv.data ∧
    (o.recv.data = [] → (PingPongStep e o).1.buffer = e.buffer) ∧
    sentFrames (PingPongStep e o).2 = [] ∧
    recvCount (PingPongStep e o).2 = 1 := by
  rw [step_rxfail_slave e o hs hrole]
  refine ⟨?_, ?_, ?_, ?_, ?_, ?_⟩
  · rw [RxLora_isMaster, hrole]
  · rw [RxLora_pingCounter]
  · rw [RxLora_buffer]
  · intro h
    rw [RxLora_buffer, h, recvInto_nil]
  · rw [RxLora_sentFrames]
  · rw [RxLora_recvCount]

/-- Witness of C5: a Responder in state `RX_TIMEOUT` whose next receive times
out again. -/
theorem C5_responder_rx_failure_witness :
    (PingPongStep { boot with isMaster := false, state := States_t.RX_TIMEOUT }
      ⟨⟨-11, [], 0, 0⟩, 0⟩).1.isMaster = false ∧
    (PingPongStep { boot with isMaster := false, state := States_t.RX_TIMEOUT }
      ⟨⟨-11, [], 0, 0⟩, 0⟩).1.pingCounter = 0 ∧
    sentFrames (PingPongStep { boot with isMaster := false, state := States_t.RX_TIMEOUT }
      ⟨⟨-11, [], 0, 0⟩, 0⟩).2 = [] ∧
    recvCount (PingPongStep { boot with isMaster := false, state := States_t.RX_TIMEOUT }
      ⟨⟨-11, [], 0, 0⟩, 0⟩).2 = 1 :=
  have h := C5_responder_rx_failure { boot with isMaster := false, state := States_t.RX_TIMEOUT }
    ⟨⟨-11, [], 0, 0⟩, 0⟩ rfl (Or.inl rfl)
  ⟨h.1, h.2.1, h.2.2.2.2.1, h.2.2.2.2.2⟩

/-- C6 fails as stated at two inputs.  (1) The boot engine receives the
3-byte frame `1 2 3`, classifies it as unrecognized and re-arms the receive,
which times out: it is then Initiator in state `RX_TIMEOUT` with
`bufferSize = 3`, and the next loop step transmits the 3-byte frame `PIN`,
which carries neither a complete tag nor a counter.  (2) An Initiator in state
`RX_TIMEOUT` with ping counter `2^32 - 1` transmits a PING with counter 0. -/
theorem C6_counterexample :
    (PingPong boot (received [1, 2, 3] 0 0) [⟨⟨-11, [], 0, 0⟩, 0⟩]).1.state = States_t.RX_TIMEOUT ∧
    (PingPong boot (received [1, 2, 3] 0 0) [⟨⟨-11, [], 0, 0⟩, 0⟩]).1.isMaster = true ∧
    sentFrames (PingPongStep (PingPong boot (received [1, 2, 3] 0 0) [⟨⟨-11, [], 0, 0⟩, 0⟩]).1
      ⟨⟨-11, [], 0, 0⟩, 0⟩).2 = [[80, 73, 78]] ∧
    sentFrames (PingPongStep
      { boot with state := States_t.RX_TIMEOUT, bufferSize := 8, pingCounter := 4294967295 }
      ⟨⟨-11, [], 0, 0⟩, 0⟩).2 = [[80, 73, 78, 71, 0, 0, 0, 0]] := by
  refine ⟨?_, ?_, ?_, ?_⟩ <;> decide

/-- C6 (amended): a loop step of an Initiator in state `RX_TIMEOUT` or
`RX_ERROR` whose `bufferSize` (the length of the last received frame, 64 at
boot) is between 8 and 64 keeps the role Initiator, issues no receive and
transmits exactly one frame, of length `bufferSize`, with tag `PING` and
counter `(pingCounter + 1) mod 2^32`, which is also the new ping counter. -/
theorem C6_initiator_rx_failure (e : Engine) (o : RadioOutcome)
    (hrole : e.isMaster = true)
    (hs : e.state = States_t.RX_TIMEOUT ∨ e.state = States_t.RX_ERROR)
    (h8 : 8 ≤ e.bufferSize) (h64 : e.bufferSize ≤ BUFFER_SIZE) :
    (PingPongStep e o).1.isMaster = true ∧
    (PingPongStep e o).1.pingCounter = (e.pingCounter + 1) % 2 ^ 32 ∧
    recvCount (PingPongStep e o).2 = 0 ∧
    ∃ frame,
      sentFrames (PingPongStep e o).2 = [frame] ∧
      frame.length = e.bufferSize ∧
      strncmp (frameBytes frame) pingMsg 4 = 0 ∧
      decodeCounter (frameBytes frame) = (e.pingCounter + 1) % 2 ^ 32 := by
  rw [step_rxfail_master e o hs hrole]
  obtain ⟨m1, m2, -, m4, -⟩ := SendPing_facts e o.sendRet
  exact ⟨m1.trans hrole, m2, m4, SendPing_sends e o.sendRet h8 h64⟩

/-- Witness of C6 (amended): the boot engine after its first receive timed
out. -/
theorem C6_initiator_rx_failure_witness :
    (PingPongStep { boot with state := States_t.RX_TIMEOUT } ⟨⟨-11, [], 0, 0⟩, 0⟩).1.isMaster = true ∧
    (PingPongStep { boot with state := States_t.RX_TIMEOUT } ⟨⟨-11, [], 0, 0⟩, 0⟩).1.pingCounter
      = (0 + 1) % 2 ^ 32 ∧
    recvCount (PingPongStep { boot with state := States_t.RX_TIMEOUT } ⟨⟨-11, [], 0, 0⟩, 0⟩).2 = 0 ∧
    ∃ frame,
      sentFrames (PingPongStep { boot with state := States_t.RX_TIMEOUT }
        ⟨⟨-11, [], 0, 0⟩, 0⟩).2 = [frame] ∧
      frame.length = 64 ∧
      strncmp (frameBytes frame) pingMsg 4 = 0 ∧
      decodeCounter (frameBytes frame) = (0 + 1) % 2 ^ 32 :=
  C6_initiator_rx_failure { boot with state := States_t.RX_TIMEOUT } ⟨⟨-11, [], 0, 0⟩, 0⟩
    rfl (Or.inl rfl) (by decide) (by decide)

/-- C7 fails as stated: node A (boot state, first receive timed out) sends
the 64-byte PING with counter 1; node B (boot state) receives it as its first
frame, becomes Responder, and its loop step transmits nothing (it issues a
receive), so no PONG with counter 1 is ever sent. -/
theorem C7_counterexample :
    sentFrames (PingPong boot timedOut [sendOk]).2
      = [[80, 73, 78, 71, 0, 0, 0, 1] ++ List.range 56] ∧
    sentFrames (PingPong boot (received ([80, 73, 78, 71, 0, 0, 0, 1] ++ List.range 56) 0 0)
      [recvOutcome timedOut]).2 = [] ∧
    recvCount (PingPong boot (received ([80, 73, 78, 71, 0, 0, 0, 1] ++ List.range 56) 0 0)
      [recvOutcome timedOut]).2 = 2 ∧
    (PingPong boot (received ([80, 73, 78, 71, 0, 0, 0, 1] ++ List.range 56) 0 0)
      [recvOutcome timedOut]).1.isMaster = false := by
  refine ⟨?_, ?_, ?_, ?_⟩ <;> decide

/-- C7 (amended): the two-node scenario over a loss-free channel as the code
runs it.  Node A boots, hears nothing and sends PING with counter 1.  Node B
boots and receives that frame first: it becomes Responder and transmits
nothing.  A therefore hears no reply, times out and sends PING with counter 2.
B receives that frame and replies PONG with counter 2.  A receives that PONG,
stays Initiator and sends PING with counter 3.  All frames are 64 bytes. -/
theorem C7_two_node_scenario :
    sentFrames (PingPong boot timedOut [sendOk, recvOutcome timedOut, sendOk]).2
      = [[80, 73, 78, 71, 0, 0, 0, 1] ++ List.range 56,
         [80, 73, 78, 71, 0, 0, 0, 2] ++ List.range 56] ∧
    sentFrames (PingPong boot (received ([80, 73, 78, 71, 0, 0, 0, 1] ++ List.range 56) 0 0)
      [recvOutcome (received ([80, 73, 78, 71, 0, 0, 0, 2] ++ List.range 56) 0 0), sendOk]).2
      = [[80, 79, 78, 71, 0, 0, 0, 2] ++ List.range 56] ∧
    (PingPong boot (received ([80, 73, 78, 71, 0, 0, 0, 1] ++ List.range 56) 0 0)
      [recvOutcome (received ([80, 73, 78, 71, 0, 0, 0, 2] ++ List.range 56) 0 0),
       sendOk]).1.isMaster = false ∧
    sentFrames (PingPong boot timedOut [sendOk, recvOutcome timedOut, sendOk,
      recvOutcome (received ([80, 79, 78, 71, 0, 0, 0, 2] ++ List.range 56) 0 0), sendOk]).2
      = [[80, 73, 78, 71, 0, 0, 0, 1] ++ List.range 56,
         [80, 73, 78, 71, 0, 0, 0, 2] ++ List.range 56,
         [80, 73, 78, 71, 0, 0, 0, 3] ++ List.range 56] ∧
    (PingPong boot timedOut [sendOk, recvOutcome timedOut, sendOk,
      recvOutcome (received ([80, 79, 78, 71, 0, 0, 0, 2] ++ List.range 56) 0 0),
      sendOk]).1.isMaster = true := by
  refine ⟨?_, ?_, ?_, ?_, ?_⟩ <;> decide

/-- C9: tag decoding is an exact 4-byte comparison.  For every buffer
content the `strncmp` test against `pingMsg` succeeds iff bytes 0..3 are
`P I N G` (80 73 78 71), the test against `pongMsg` succeeds iff they are
`P O N G` (80 79 78 71), and both results are determined by bytes 0..3 alone:
replacing every byte from offset 4 on by 0 changes neither. -/
theorem C9_tag_decoding (b : Bytes) :
    (strncmp b pingMsg 4 = 0 ↔ (b 0 = 80 ∧ b 1 = 73 ∧ b 2 = 78 ∧ b 3 = 71)) ∧
    (strncmp b pongMsg 4 = 0 ↔ (b 0 = 80 ∧ b 1 = 79 ∧ b 2 = 78 ∧ b 3 = 71)) ∧
    strncmp b pingMsg 4 = strncmp (fun i => if i < 4 then b i else 0) pingMsg 4 ∧
    strncmp b pongMsg 4 = strncmp (fun i => if i < 4 then b i else 0) pongMsg 4 := by
  refine ⟨strncmp_ping_iff b, strncmp_pong_iff b, ?_, ?_⟩ <;> simp [strncmp]

/-- C11: after any transmit outcome the engine listens.  A loop step taken
in state `TX`, `TX_ERROR` or `TX_TIMEOUT` issues exactly one receive and no
transmit, and leaves the role and the ping counter unchanged. -/
theorem C11_listen_after_transmit (e : Engine) (o : RadioOutcome)
    (hs : e.state = States_t.TX ∨ e.state = States_t.TX_ERROR ∨ e.state = States_t.TX_TIMEOUT) :
    recvCount (PingPongStep e o).2 = 1 ∧
    sentFrames (PingPongStep e o).2 = [] ∧
    (PingPongStep e o).1.isMaster = e.isMaster ∧
    (PingPongStep e o).1.pingCounter = e.pingCounter := by
  rw [step_tx e o hs]
  exact ⟨RxLora_recvCount _ _ _, RxLora_sentFrames _ _ _, RxLora_isMaster _ _ _,
    RxLora_pingCounter _ _ _⟩

/-- Witness of C11: the boot engine in state `TX_ERROR` (a failed send). -/
theorem C11_listen_after_transmit_witness :
    recvCount (PingPongStep { boot with state := States_t.TX_ERROR } sendOk).2 = 1 ∧
    sentFrames (PingPongStep { boot with state := States_t.TX_ERROR } sendOk).2 = [] ∧
    (PingPongStep { boot with state := States_t.TX_ERROR } sendOk).1.isMaster = true ∧
    (PingPongStep { boot with state := States_t.TX_ERROR } sendOk).1.pingCounter = 0 :=
  C11_listen_after_transmit { boot with state := States_t.TX_ERROR } sendOk (Or.inr (Or.inl rfl))

/-- C12: PING wire format.  For every counter value, every earlier buffer
content and every frame length `N = bufferSize` with `8 ≤ N ≤ 64`, `SendPing`
hands exactly one frame to the radio; it has `N` bytes, bytes 0..3 are `PING`
(80 73 78 71), bytes 4..7 are the big-endian bytes of the incremented counter
`c = (pingCounter + 1) mod 2^32`, and byte `i` is `(i - 8) mod 256` for every
`8 ≤ i < N`. -/
theorem C12_ping_wire_format (e : Engine) (ret : Int)
    (h8 : 8 ≤ e.bufferSize) (h64 : e.bufferSize ≤ BUFFER_SIZE) :
    ∃ frame, sentFrames (SendPing e ret).2 = [frame] ∧ frame.length = e.bufferSize ∧
      frame.take 4 = [80, 73, 78, 71] ∧
      (frame.drop 4).take 4 =
        [(e.pingCounter + 1) % 2 ^ 32 / 2 ^ 24 % 256, (e.pingCounter + 1) % 2 ^ 32 / 2 ^ 16 % 256,
         (e.pingCounter + 1) % 2 ^ 32 / 2 ^ 8 % 256, (e.pingCounter + 1) % 2 ^ 32 % 256] ∧
      ∀ i, 8 ≤ i → i < e.bufferSize → frame.getD i 0 = (i - 8) % 256 := by
  have hm : e.bufferSize % 2 ^ 8 = e.bufferSize := by
    unfold BUFFER_SIZE at h64
    exact Nat.mod_eq_of_lt (by norm_num; omega)
  obtain ⟨t0, t1, t2, t3⟩ := pingBuffer_tag e
  obtain ⟨c4, c5, c6, c7⟩ := pingBuffer_counter e
  obtain ⟨k, hk⟩ : ∃ k, e.bufferSize = k + 8 := ⟨e.bufferSize - 8, by omega⟩
  refine ⟨(List.range e.bufferSize).map (pingBuffer e), ?_, by simp, ?_, ?_, ?_⟩
  · rw [SendPing_eq, hm]; rfl
  · rw [hk]
    simp [List.range_succ_eq_map, List.range_add, t0, t1, t2, t3]
  · rw [hk]
    simp [List.range_succ_eq_map, List.range_add, c4, c5, c6, c7]
  · intro i hi8 hi
    have h := frameBytes_map_range (pingBuffer e) e.bufferSize i hi
    unfold frameBytes at h
    rw [h, pingBuffer_filler e i hi8 hi]

/-- Witness of C12 at the boot state (64-byte frame, counter 1). -/
theorem C12_ping_wire_format_witness :
    ∃ frame, sentFrames (SendPing boot 0).2 = [frame] ∧ frame.length = boot.bufferSize ∧
      frame.take 4 = [80, 73, 78, 71] ∧
      (frame.drop 4).take 4 =
        [(boot.pingCounter + 1) % 2 ^ 32 / 2 ^ 24 % 256,
         (boot.pingCounter + 1) % 2 ^ 32 / 2 ^ 16 % 256,
         (boot.pingCounter + 1) % 2 ^ 32 / 2 ^ 8 % 256, (boot.pingCounter + 1) % 2 ^ 32 % 256] ∧
      ∀ i, 8 ≤ i → i < boot.bufferSize → frame.getD i 0 = (i - 8) % 256 :=
  C12_ping_wire_format boot 0 (by decide) (by decide)

/-- C14: a Responder never originates counters.  In a loop step taken as
Responder, whatever the state and the radio outcome, the ping counter is
unchanged; in every loop step the ping counter is either unchanged or the
step was taken as Initiator and the counter became `(pingCounter + 1) mod
2^32`. -/
theorem C14_counter_origin (e : Engine) (o : RadioOutcome) :
    (e.isMaster = false → (PingPongStep e o).1.pingCounter = e.pingCounter) ∧
    ((PingPongStep e o).1.pingCounter = e.pingCounter ∨
      (e.isMaster = true ∧
        (PingPongStep e o).1.pingCounter = (e.pingCounter + 1) % 2 ^ 32)) := by
  refine ⟨?_, step_pingCounter e o⟩
  intro hm
  rcases step_pingCounter e o with h | ⟨h, -⟩
  · exact h
  · rw [hm] at h
    exact absurd h (by simp)

/-- Witness of C14: a Responder that has received a PING and replies PONG
keeps its ping counter 7. -/
theorem C14_counter_origin_witness :
    (PingPongStep (RxLora { boot with isMaster := false, pingCounter := 7 } RX_TIMEOUT_VALUE
      (received [80, 73, 78, 71, 0, 0, 0, 1] 0 0)).1 sendOk).1.pingCounter = 7 :=
  (C14_counter_origin (RxLora { boot with isMaster := false, pingCounter := 7 } RX_TIMEOUT_VALUE
      (received [80, 73, 78, 71, 0, 0, 0, 1] 0 0)).1 sendOk).1 (by decide)

/-- C15: transmit timeout is never observed.  For every return value of
`lora_send`, `TxLora` sets `state` to `TX_ERROR` when it is negative and to
`TX` otherwise; in every run from boot the reached state is not `TX_TIMEOUT`
and `TX_TIMEOUT` is never written to `state`. -/
theorem C15_no_tx_timeout (e : Engine) (size : Nat) (ret : Int) (r0 : RecvResult)
    (os : List RadioOutcome) :
    (TxLora e size ret).1.state = (if ret < 0 then States_t.TX_ERROR else States_t.TX) ∧
    (PingPong boot r0 os).1.state ≠ States_t.TX_TIMEOUT ∧
    Effect.setState States_t.TX_TIMEOUT ∉ (PingPong boot r0 os).2 := by
  have hstart : (PingPongStart boot r0).1.state ≠ States_t.TX_TIMEOUT := by
    unfold PingPongStart
    rcases RxLora_state { boot with isMaster := true } RX_TIMEOUT_VALUE r0 with h | h | h <;>
      rw [h] <;> simp
  have hstart2 : Effect.setState States_t.TX_TIMEOUT ∉ (PingPongStart boot r0).2 := by
    unfold PingPongStart RxLora
    split_ifs <;> simp
  obtain ⟨i1, i2⟩ := loop_no_tx_timeout os _ hstart
  refine ⟨?_, ?_, ?_⟩
  · unfold TxLora
    split_ifs <;> rfl
  · rw [PingPong_eq]; exact i1
  · rw [PingPong_eq]
    intro hmem
    rw [List.mem_append] at hmem
    rcases hmem with hmem | hmem
    · exact hstart2 hmem
    · exact i2 hmem

/-- C16: low power after every radio operation.  For every result of
`lora_recv` the trace of `RxLora` is the receive, then one `Radio.Sleep()`,
then the write of `state`; for every result of `lora_send` the trace of
`TxLora` is the send, then one `Radio.Sleep()`, then the write of `state`. -/
theorem C16_sleep_after_radio (e : Engine) (t : Nat) (r : RecvResult) (size : Nat) (ret : Int) :
    (RxLora e t r).2 =
      [Effect.recv t, Effect.radioSleep,
       Effect.setState (if r.size = -EAGAIN then States_t.RX_TIMEOUT
         else if r.size < 0 then States_t.RX_ERROR else States_t.RX)] ∧
    (RxLora e t r).1.state = (if r.size = -EAGAIN then States_t.RX_TIMEOUT
         else if r.size < 0 then States_t.RX_ERROR else States_t.RX) ∧
    (TxLora e size ret).2 =
      [Effect.send ((List.range (size % 2 ^ 8)).map e.buffer), Effect.radioSleep,
       Effect.setState (if ret < 0 then States_t.TX_ERROR else States_t.TX)] ∧
    (TxLora e size ret).1.state = (if ret < 0 then States_t.TX_ERROR else States_t.TX) := by
  unfold RxLora TxLora
  refine ⟨?_, ?_, ?_, ?_⟩ <;> split_ifs <;> rfl

/-- C17 at the failing input: the boot engine whose first receive returns a
frame of length 0.  After any positive number of loop iterations, whatever the
radio would answer, the state is `LOWPOWER`, nothing was transmitted and the
only receive ever issued is the first one: the loop spins idle. -/
theorem C17_stall_on_empty_frame (rssi snr : Int) (o : RadioOutcome) (os : List RadioOutcome) :
    (PingPong boot (received [] rssi snr) []).1.state = States_t.RX ∧
    (PingPong boot (received [] rssi snr) (o :: os)).1.state = States_t.LOWPOWER ∧
    recvCount (PingPong boot (received [] rssi snr) (o :: os)).2 = 1 ∧
    sentFrames (PingPong boot (received [] rssi snr) (o :: os)).2 = [] := by
  have hstart : PingPongStart boot (received [] rssi snr) =
      ({ boot with buffer := recvInto boot.buffer [], rssiValue := rssi, snrValue := snr,
                   bufferSize := 0, state := States_t.RX },
       [Effect.recv RX_TIMEOUT_VALUE, Effect.radioSleep, Effect.setState States_t.RX]) := by
    unfold PingPongStart
    rw [RxLora_received]
    rfl
  rw [PingPong_eq, PingPong_eq, hstart]
  refine ⟨rfl, ?_⟩
  rw [loop_cons, step_RX_empty _ o rfl rfl, loop_lowpower os _ rfl]
  exact ⟨rfl, rfl, rfl⟩

/-- C18: buffer bounds.  In every run from boot in which every `lora_recv`
returned at most 64, the reached state has `bufferSize ≤ 64`; every offset
`SendPing` writes, every offset the `RX` case of `PingPong` accesses and every
offset `lora_send` reads is below 64; the length passed to `TxLora` is
unchanged by the conversion to `uint8_t`; and `SendPing` changes the buffer at
no other offset than the listed ones. -/
theorem C18_buffer_bounds (r0 : RecvResult) (os : List RadioOutcome)
    (h0 : sizeOk r0) (hos : ∀ o ∈ os, sizeOk o.recv) :
    (PingPong boot r0 os).1.bufferSize ≤ BUFFER_SIZE ∧
    (∀ i ∈ SendPingOffsets (PingPong boot r0 os).1.bufferSize, i < BUFFER_SIZE) ∧
    (∀ i ∈ PingPongOffsets, i < BUFFER_SIZE) ∧
    (∀ i ∈ TxLoraOffsets (PingPong boot r0 os).1.bufferSize, i < BUFFER_SIZE) ∧
    (PingPong boot r0 os).1.bufferSize % 2 ^ 8 = (PingPong boot r0 os).1.bufferSize ∧
    (∀ (ret : Int) (j : Nat), j ∉ SendPingOffsets (PingPong boot r0 os).1.bufferSize →
      (SendPing (PingPong boot r0 os).1 ret).1.buffer j = (PingPong boot r0 os).1.buffer j) := by
  have hstart : (PingPongStart boot r0).1.bufferSize ≤ BUFFER_SIZE := by
    rcases start_bufferSize r0 with h | ⟨hn, h⟩
    · rw [h]
    · rw [h]
      unfold sizeOk BUFFER_SIZE at *
      have : r0.size.toNat ≤ 64 := by omega
      exact le_trans (Nat.mod_le _ _) this
  have hle : (PingPong boot r0 os).1.bufferSize ≤ BUFFER_SIZE := by
    rw [PingPong_eq]
    exact loop_bufferSize_le os _ hstart hos
  have hmod : (PingPong boot r0 os).1.bufferSize % 2 ^ 8 = (PingPong boot r0 os).1.bufferSize := by
    unfold BUFFER_SIZE at hle
    exact Nat.mod_eq_of_lt (by norm_num; omega)
  refine ⟨hle, ?_, ?_, ?_, hmod, fun ret j hj => SendPing_frame_condition _ ret j hj⟩
  · intro i hi
    unfold BUFFER_SIZE at *
    simp only [SendPingOffsets, List.mem_append, List.mem_cons, List.mem_range',
      List.not_mem_nil, or_false] at hi
    rcases hi with hi | ⟨k, hk, rfl⟩
    · omega
    · omega
  · intro i hi
    unfold BUFFER_SIZE
    simp only [PingPongOffsets, List.mem_cons, List.not_mem_nil, or_false] at hi
    omega
  · intro i hi
    unfold TxLoraOffsets at hi
    rw [hmod, List.mem_range] at hi
    exact lt_of_lt_of_le hi hle

/-- Witness of C18: the boot engine receives a 3-byte frame and then times
out. -/
theorem C18_buffer_bounds_witness :
    (PingPong boot (received [1, 2, 3] 0 0) [recvOutcome timedOut]).1.bufferSize ≤ BUFFER_SIZE ∧
    (∀ i ∈ SendPingOffsets (PingPong boot (received [1, 2, 3] 0 0)
      [recvOutcome timedOut]).1.bufferSize, i < BUFFER_SIZE) ∧
    (∀ i ∈ TxLoraOffsets (PingPong boot (received [1, 2, 3] 0 0)
      [recvOutcome timedOut]).1.bufferSize, i < BUFFER_SIZE) :=
  have h := C18_buffer_bounds (received [1, 2, 3] 0 0) [recvOutcome timedOut]
    (by unfold sizeOk; decide)
    (by
      intro o ho
      simp only [List.mem_singleton] at ho
      rw [ho]
      unfold sizeOk
      decide)
  ⟨h.1, h.2.1, h.2.2.2.1⟩

/-- C19: the LoRaWAN join loop.  For every sequence `res` of join results the
loop terminates, having made `m` calls of `lorawan_join` with `1 ≤ m ≤ 16`,
numbered 0 to `m - 1`; every call but the last failed, so no call follows a
successful one, and if fewer than 16 calls were made the last one succeeded;
each call is followed by a sleep of 6000 ms exactly when it failed and its
number is odd; and `main` then enters the send loop and calls `lorawan_send`,
whatever the join results were. -/
theorem C19_join_loop (res : Nat → Int) (ret : Int) (rets : List Int) :
    ∃ m, 1 ≤ m ∧ m ≤ 16 ∧
      joinCount (joinLoop res 0 0) = m ∧
      joinLoop res 0 0 = (List.range m).flatMap (attemptTrace res) ∧
      (∀ k, k + 1 < m → res k < 0) ∧
      (m < 16 → 0 ≤ res (m - 1)) ∧
      ∃ payload rest,
        classAMain res (ret :: rets) = joinLoop res 0 0 ++ JoinEffect.lwSend 2 payload :: rest := by
  obtain ⟨m, -, m2, m3, m4, m5, m6, m7⟩ := joinLoop_shape res 16 0 (by norm_num)
  refine ⟨m, ?_, m2, ?_, ?_, ?_, ?_, ?_⟩
  · have := m3 (by norm_num)
    omega
  · simpa using m5
  · rw [List.range_eq_range']
    simpa using m4
  · intro k hk
    exact m6 k (Nat.zero_le _) hk
  · exact m7 (by norm_num)
  · unfold classAMain sendLoop
    split_ifs
    · exact ⟨_, _, rfl⟩
    · exact ⟨_, [], rfl⟩
    · exact ⟨_, _, rfl⟩

end LoRaPingPong
